import Mathlib

/-!
# log-flexvolume: the FlexVolume driver (`driver/driver.go`)

A shallow embedding of the driver's `Mount` and `Unmount` operations and of the
helpers they call (`checkArgsLen`, `returnErrorResponse`, `precreateDir`,
`bindMount`, `unMount`), together with the parts of the Go standard library whose
behaviour decides the result (`path.Join`, `path.Clean`, `fmt.Errorf` called with a
format and no operands, `json.Unmarshal` into `Options`).

Conventions

* A Go `string` is a Lean `String`; the byte-level algorithms work on the list of
  characters. Every byte those algorithms test for is ASCII, so working on characters
  instead of UTF-8 bytes does not change what they do on valid UTF-8 text.
* A Go `error` is an `Option String`: `none` is `nil`, `some m` is an error whose
  `Error()` text is `m`.
* The outside world (JSON decoder, filesystem, external commands) is a record of
  functions `Env σ` over a state `σ` that is passed explicitly.
* Everything an operation does to the outside world is recorded, in order, in a
  trace of `Event`s.
-/

namespace Driver

/-! ## Constants -/

/-- The constant `mountCmd`. -/
def mountCmd : String := "mount"

/-- The constant `unmountCmd`. -/
def unmountCmd : String := "umount"

/-- The constant `svcLogBaseDir`. -/
def svcLogBaseDir : String := "/var/lib/app/log-volumes"

/-- The variable `mountCmdArg`. -/
def mountCmdArg : List String := ["-o", "bind"]

/-! ## Data model -/

/-- The struct `Options`; the zero value has every field empty. -/
structure Options where
  Format : String := ""
  PodName : String := ""
  PodNameSpace : String := ""
  PodUid : String := ""
  deriving DecidableEq, Repr

/-- Status of a response (`StatusSuccess`, `StatusFailure`). -/
inductive Status where
  | Success
  | Failure
  deriving DecidableEq, Repr

/-- The struct `CommonResponse`. -/
structure CommonResponse where
  Status : Status
  Message : String
  deriving DecidableEq, Repr

/-- What a call hands back: a response, or a run-time panic caused by indexing a slice
past its end. -/
inductive Outcome where
  | response (r : CommonResponse)
  | indexOutOfRange
  deriving DecidableEq, Repr

/-- One interaction with the outside world. -/
inductive Event where
  /-- The call `Logger.Debugf`, with the formatted line. -/
  | debugf (msg : String)
  /-- The call `Logger.Error(err)`, with the text of `err`. -/
  | error (msg : String)
  /-- The call `os.MkdirAll(path, os.ModePerm)` and the error it returned. -/
  | mkdirAll (path : String) (err : Option String)
  /-- The call `exec.Command(name, args...).CombinedOutput()`. -/
  | command (name : String) (args : List String)
  deriving DecidableEq, Repr

/-- The outside world, over a state `σ`.

* `unmarshal blob v` is `json.Unmarshal([]byte(blob), &v)`: the decoded value or the
  text of the decode error.
* `requiredErr` is the text of the error `govalidator` reports for an empty field
  tagged `valid:"required"`.
* `mkdirAll s p` is `os.MkdirAll(p, os.ModePerm)` in state `s`.
* `combinedOutput s name args` is `exec.Command(name, args...).CombinedOutput()` in
  state `s`: the captured output and the error (`none` when the command ran and
  exited with status zero). -/
structure Env (σ : Type) where
  unmarshal : String → Options → Except String Options
  requiredErr : String
  mkdirAll : σ → String → Option String × σ
  combinedOutput : σ → String → List String → (String × Option String) × σ

/-- The result of running an operation: what it handed back, what it did, and the state
of the world it left. -/
structure Run (σ : Type) where
  out : Outcome
  trace : List Event
  state : σ

/-! ## `path.Clean` and `path.Join` -/

/-- The backtracking of `path.Clean` at a `..` element: `out.w--`, then
`for out.w > dotdot && out.index(out.w) != '/' { out.w-- }`. The buffer is held
most recent byte first, so `out.w` is the length of the list and `out.index(out.w)`,
after a decrement, is the byte just dropped. -/
def backtrack (dotdot : Nat) : List Char → List Char
  | [] => []
  | c :: out => if out.length > dotdot ∧ c ≠ '/' then backtrack dotdot out else out

/-- The main loop of `path.Clean`. `path` is what remains to be read (`path[r:]`),
`out` the bytes written so far, most recent first (`out.w = out.length`), and
`dotdot` the index where `..` must stop. Every iteration reads at least one byte,
so a fuel of `len(path)` is enough. -/
def cleanLoop (rooted : Bool) : Nat → List Char → List Char → Nat → List Char
  | 0, _, out, _ => out
  | _ + 1, [], out, _ => out
  | fuel + 1, c :: t, out, dotdot =>
    if c = '/' then
      -- empty path element
      cleanLoop rooted fuel t out dotdot
    else if c = '.' ∧ (t = [] ∨ t.head? = some '/') then
      -- . element
      cleanLoop rooted fuel t out dotdot
    else if c = '.' ∧ t.head? = some '.' ∧ (t.tail = [] ∨ t.tail.head? = some '/') then
      -- .. element: remove to last /
      if out.length > dotdot then
        cleanLoop rooted fuel t.tail (backtrack dotdot out) dotdot
      else if rooted = false then
        let out1 := if out.length > 0 then '/' :: out else out
        let out2 := '.' :: '.' :: out1
        cleanLoop rooted fuel t.tail out2 out2.length
      else
        cleanLoop rooted fuel t.tail out dotdot
    else
      -- real path element: add slash if needed, copy element
      let out1 :=
        if (rooted = true ∧ out.length ≠ 1) ∨ (rooted = false ∧ out.length ≠ 0) then '/' :: out
        else out
      cleanLoop rooted fuel ((c :: t).dropWhile (· ≠ '/'))
        (((c :: t).takeWhile (· ≠ '/')).reverse ++ out1) dotdot

/-- The function `path.Clean` on the characters of the path. -/
def cleanChars (path : List Char) : List Char :=
  if path = [] then ['.']
  else
    let rooted : Bool := path.head? = some '/'
    let out :=
      if rooted then cleanLoop rooted path.length path.tail ['/'] 1
      else cleanLoop rooted path.length path [] 0
    if out.length = 0 then ['.'] else out.reverse

/-- The function `path.Clean`. -/
def Clean (path : String) : String := String.mk (cleanChars path.data)

/-- The function `path.Join`: the elements from the first non-empty one on, joined with
slashes and cleaned; the empty string when every element is empty. -/
def Join (elem : List String) : String :=
  match elem.dropWhile (· = "") with
  | [] => ""
  | es => Clean ("/".intercalate es)

/-! ## `fmt`: formatting -/

/-- The verb `%v` applied to a slice of strings (`[]string`, `cli.Args`): the elements
separated by a space, in square brackets. -/
def fmtV (args : List String) : String := "[" ++ " ".intercalate args ++ "]"

/-- The flag characters the formatter of `fmt` skips after a `%`. -/
def isFlag (c : Char) : Bool := c = '#' || c = '0' || c = '+' || c = '-' || c = ' '

/-- The function `tooLarge` of `fmt`. -/
def tooLarge (x : Nat) : Bool := x > 1000000

/-- The loop of `parsenum` over the segment it scans; `k` counts the bytes consumed and
`segLen` is the length of the whole segment (an overflow consumes all of it). -/
def parsenumLoop (segLen : Nat) : List Char → Nat → Bool → Nat → Nat × Bool × Nat
  | [], num, isnum, k => (num, isnum, k)
  | c :: t, num, isnum, k =>
    if '0' ≤ c ∧ c ≤ '9' then
      if tooLarge num then (0, false, segLen)
      else parsenumLoop segLen t (num * 10 + (c.toNat - '0'.toNat)) true (k + 1)
    else (num, isnum, k)

/-- The function `parsenum(s, start, end)` of `fmt` on the segment `s[start:end]`: the
number read, whether one was read, and how many bytes were consumed. -/
def parsenum (seg : List Char) : Nat × Bool × Nat :=
  if seg = [] then (0, false, 0) else parsenumLoop seg.length seg 0 false 0

/-- The function `parseArgNumber` of `fmt` on a format that starts with `[`: the index,
the number of bytes to skip, and whether the bracket held a number. -/
def parseArgNumber (f : List Char) : Int × Nat × Bool :=
  if f.length < 3 then (0, 1, false)
  else
    let idx := f.tail.indexOf ']'
    if idx < f.tail.length then
      let r := parsenum (f.tail.take idx)
      if r.2.1 = false ∨ r.2.2 ≠ idx then (0, idx + 2, false)
      else ((r.1 : Int) - 1, idx + 2, true)
    else (0, 1, false)

/-- The method `argNumber` of `fmt` when the call has no operands: an index in brackets
can never be in range, so it clears `goodArgNum`. The result is the rest of the format,
whether a well-formed index was found (`afterIndex`), and `goodArgNum`. -/
def argNumber (f : List Char) (goodArgNum : Bool) : List Char × Bool × Bool :=
  if f.head? = some '[' then
    let r := parseArgNumber f
    (f.drop r.2.1, r.2.2, false)
  else (f, false, goodArgNum)

/-- The text `%!(NOVERB)`. -/
def noVerbString : List Char := "%!(NOVERB)".data

/-- The text `%!(BADWIDTH)`. -/
def badWidthString : List Char := "%!(BADWIDTH)".data

/-- The text `%!(BADPREC)`. -/
def badPrecString : List Char := "%!(BADPREC)".data

/-- One verb of `doPrintf` when the call has no operands. `f0` is the format right after
the `%`; the result is what is written and the format still to be processed. -/
def verbNoOperands (f0 : List Char) : List Char × List Char :=
  -- flags
  let f1 := f0.dropWhile isFlag
  -- explicit argument index
  let a1 := argNumber f1 true
  -- width
  let wd : List Char × List Char × Bool × Bool :=
    if a1.1.head? = some '*' then (a1.1.tail, badWidthString, false, a1.2.2)
    else
      let r := parsenum a1.1
      (a1.1.drop r.2.2, [], a1.2.1, a1.2.2 && !(a1.2.1 && r.2.1))
  -- precision
  let pr : List Char × List Char × Bool × Bool :=
    if wd.1.head? = some '.' then
      let a2 := argNumber wd.1.tail (wd.2.2.2 && !wd.2.2.1)
      if a2.1.head? = some '*' then (a2.1.tail, badPrecString, false, a2.2.2)
      else (a2.1.drop (parsenum a2.1).2.2, [], a2.2.1, a2.2.2)
    else (wd.1, [], wd.2.2.1, wd.2.2.2)
  let a3 := if pr.2.2.1 = false then argNumber pr.1 pr.2.2.2 else (pr.1, pr.2.2.1, pr.2.2.2)
  match a3.1 with
  | [] => (wd.2.1 ++ pr.2.1 ++ noVerbString, [])
  | verb :: t =>
    if verb = '%' then (wd.2.1 ++ pr.2.1 ++ ['%'], t)
    else if a3.2.2 = false then (wd.2.1 ++ pr.2.1 ++ "%!".data ++ [verb] ++ "(BADINDEX)".data, t)
    else (wd.2.1 ++ pr.2.1 ++ "%!".data ++ [verb] ++ "(MISSING)".data, t)

/-- The loop of `doPrintf` when the call has no operands: text up to the next `%` is
copied, then one verb is processed. Every iteration but the last consumes a `%`, so a
fuel of `len(format) + 1` is enough. -/
def doPrintfLoop : Nat → List Char → List Char
  | 0, _ => []
  | fuel + 1, f =>
    match f.dropWhile (· ≠ '%') with
    | [] => f.takeWhile (· ≠ '%')
    | _ :: t =>
      f.takeWhile (· ≠ '%') ++ (verbNoOperands t).1 ++ doPrintfLoop fuel (verbNoOperands t).2

/-- The text of `fmt.Sprintf(format)` and of the error `fmt.Errorf(format)`, called with a
format and no operands. -/
def Sprintf0 (format : String) : String :=
  String.mk (doPrintfLoop (format.data.length + 1) format.data)

/-! ## The driver -/

/-- The function `checkArgsLen`. -/
def checkArgsLen (args : List String) (expectedNum : Nat) : Option String :=
  if args.length < expectedNum then some ("mount: invalid args num, " ++ fmtV args)
  else none

/-- The function `returnErrorResponse`, on the text of a non-nil error. -/
def returnErrorResponse (err : String) : CommonResponse :=
  { Status := Status.Failure, Message := err }

/-- The response every operation returns on success. -/
def successResponse : CommonResponse :=
  { Status := Status.Success, Message := "Success" }

/-- The call `valid.ValidateStruct(opts)`: of the fields of `Options` only `Format` carries
a `valid` tag, `required`, which an empty string does not satisfy. -/
def ValidateStruct {σ : Type} (env : Env σ) (opts : Options) : Option String :=
  if opts.Format = "" then some env.requiredErr else none

/-- What a helper that touches the world hands back: its error, what it did, and the
state it left. -/
structure Step (σ : Type) where
  err : Option String
  trace : List Event
  state : σ

/-- The function `precreateDir`. -/
def precreateDir {σ : Type} (env : Env σ) (s : σ) : Step σ :=
  let r := env.mkdirAll s svcLogBaseDir
  { err := r.1.map (fun e => "create log dir " ++ svcLogBaseDir ++ " failed, " ++ e),
    trace := [Event.mkdirAll svcLogBaseDir r.1],
    state := r.2 }

/-- The function `bindMount`. -/
def bindMount {σ : Type} (env : Env σ) (s : σ) (hostPath containerPath : String) : Step σ :=
  let c := (mountCmdArg ++ [hostPath]) ++ [containerPath]
  let r := env.combinedOutput s mountCmd c
  { err := r.1.2.map (fun e =>
      "run bind mount command failed, hostPath: " ++ hostPath ++ ", containerPath: "
        ++ containerPath ++ ", error: " ++ e ++ ", output: " ++ r.1.1),
    trace := [Event.command mountCmd c],
    state := r.2 }

/-- The function `unMount`: on failure the captured output is the format of
`fmt.Errorf`. -/
def unMount {σ : Type} (env : Env σ) (s : σ) (containerPath : String) : Step σ :=
  let r := env.combinedOutput s unmountCmd [containerPath]
  { err := r.1.2.map (fun _ => Sprintf0 r.1.1),
    trace := [Event.command unmountCmd [containerPath]],
    state := r.2 }

/-- The host directory `Mount` derives:
`path.Join(svcLogBaseDir, opts.PodName+"_"+opts.PodNameSpace+"_"+opts.PodUid)`. -/
def hostDirOf (opts : Options) : String :=
  Join [svcLogBaseDir, opts.PodName ++ "_" ++ opts.PodNameSpace ++ "_" ++ opts.PodUid]

/-- The body of an operation up to its `return`: what it hands back, the value the
function-level variable `err` holds at that point, what it did, and the state it left. -/
structure Body (σ : Type) where
  out : Outcome
  err : Option String
  trace : List Event
  state : σ

/-- The deferred closure of `Mount` and `Unmount`: `if err != nil { logger.Error(err) }`,
run when the operation returns, on the value `err` holds then. -/
def deferredLog (err : Option String) : List Event :=
  match err with
  | some e => [Event.error e]
  | none => []

/-- The body of `Mount`. The check of `precreateDir` declares a new `err` with `:=`, so
the function-level `err` still holds the `nil` of the validation that passed. -/
def mountBody {σ : Type} (env : Env σ) (s : σ) (args : List String) : Body σ :=
  let dbg := Event.debugf ("mount args: " ++ fmtV args)
  match checkArgsLen args 2 with
  | some err => ⟨.response (returnErrorResponse err), some err, [dbg], s⟩
  | none =>
    match args[0]? with
    | none => ⟨.indexOutOfRange, none, [dbg], s⟩
    | some containerPath =>
      match args[1]? with
      | none => ⟨.indexOutOfRange, none, [dbg], s⟩
      | some blob =>
        match env.unmarshal blob {} with
        | .error err => ⟨.response (returnErrorResponse err), some err, [dbg], s⟩
        | .ok opts =>
          match ValidateStruct env opts with
          | some err => ⟨.response (returnErrorResponse err), some err, [dbg], s⟩
          | none =>
            let pre := precreateDir env s
            match pre.err with
            | some err => ⟨.response (returnErrorResponse err), none, dbg :: pre.trace, pre.state⟩
            | none =>
              let hostDir := hostDirOf opts
              let mk := env.mkdirAll pre.state hostDir
              let tr := dbg :: pre.trace ++ [Event.mkdirAll hostDir mk.1]
              match mk.1 with
              | some err =>
                ⟨.response (returnErrorResponse ("create hostPath failed, " ++ err)), some err,
                  tr, mk.2⟩
              | none =>
                let bm := bindMount env mk.2 hostDir containerPath
                match bm.err with
                | some err =>
                  ⟨.response (returnErrorResponse ("bind mount failed, " ++ err)), some err,
                    tr ++ bm.trace, bm.state⟩
                | none => ⟨.response successResponse, none, tr ++ bm.trace, bm.state⟩

/-- The method `FlexVolumeDriver.Mount`: the body, then the deferred closure. -/
def Mount {σ : Type} (env : Env σ) (s : σ) (args : List String) : Run σ :=
  let b := mountBody env s args
  { out := b.out, trace := b.trace ++ deferredLog b.err, state := b.state }

/-- The body of `Unmount`. -/
def unmountBody {σ : Type} (env : Env σ) (s : σ) (args : List String) : Body σ :=
  let dbg := Event.debugf ("ummount args: " ++ fmtV args)
  match checkArgsLen args 1 with
  | some err => ⟨.response (returnErrorResponse err), some err, [dbg], s⟩
  | none =>
    match args[0]? with
    | none => ⟨.indexOutOfRange, none, [dbg], s⟩
    | some containerPath =>
      let um := unMount env s containerPath
      match um.err with
      | some err =>
        ⟨.response (returnErrorResponse
            ("unmount container path " ++ containerPath ++ " failed, " ++ err)),
          some err, dbg :: um.trace, um.state⟩
      | none => ⟨.response successResponse, none, dbg :: um.trace, um.state⟩

/-- The method `FlexVolumeDriver.Unmount`: the body, then the deferred closure. -/
def Unmount {σ : Type} (env : Env σ) (s : σ) (args : List String) : Run σ :=
  let b := unmountBody env s args
  { out := b.out, trace := b.trace ++ deferredLog b.err, state := b.state }

/-! ## Reading a trace -/

/-- Whether an event acts on the filesystem or runs an external command (the events
that are not log lines). -/
def Event.isEffect : Event → Bool
  | .mkdirAll _ _ => true
  | .command _ _ => true
  | _ => false

/-- The filesystem and command events of a trace, in order. -/
def effects (tr : List Event) : List Event := tr.filter Event.isEffect

/-- The texts passed to `Logger.Error` in a trace, in order. -/
def errorLog : List Event → List String
  | [] => []
  | .error m :: tr => m :: errorLog tr
  | _ :: tr => errorLog tr

/-- The directories known to exist after a trace, starting from `dirs`: a call of
`os.MkdirAll` that returned `nil` leaves its path a directory; log lines and the
`mount` and `umount` commands neither create nor remove a directory. -/
def dirsAfter (dirs : List String) : List Event → List String
  | [] => dirs
  | .mkdirAll p none :: tr => dirsAfter (p :: dirs) tr
  | _ :: tr => dirsAfter dirs tr

/-! ## `encoding/json`: decoding a blob into `Options` -/

/-- The function `isSpace` of the scanner of `encoding/json`. -/
def isSpace (c : Char) : Bool := c = ' ' || c = '\t' || c = '\r' || c = '\n'

/-- The input after the white space the scanner skips. -/
def skipSpace (s : List Char) : List Char := s.dropWhile isSpace

/-- A decimal digit. -/
def isDigit (c : Char) : Bool := '0'.toNat ≤ c.toNat && c.toNat ≤ '9'.toNat

/-- The value of a hexadecimal digit, as the scanner and `getu4` read it. -/
def hexVal (c : Char) : Option Nat :=
  if '0'.toNat ≤ c.toNat ∧ c.toNat ≤ '9'.toNat then some (c.toNat - '0'.toNat)
  else if 'a'.toNat ≤ c.toNat ∧ c.toNat ≤ 'f'.toNat then some (c.toNat - 'a'.toNat + 10)
  else if 'A'.toNat ≤ c.toNat ∧ c.toNat ≤ 'F'.toNat then some (c.toNat - 'A'.toNat + 10)
  else none

/-- The function `getu4` on the four characters after a backslash and u. -/
def getu4 (a b c d : Char) : Option Nat :=
  match hexVal a, hexVal b, hexVal c, hexVal d with
  | some x, some y, some z, some w => some (((x * 16 + y) * 16 + z) * 16 + w)
  | _, _, _, _ => none

/-- The character a one-letter escape stands for. -/
def simpleEscape (e : Char) : Option Char :=
  if e = '"' then some '"'
  else if e = '\\' then some '\\'
  else if e = '/' then some '/'
  else if e = 'b' then some (Char.ofNat 8)
  else if e = 'f' then some (Char.ofNat 12)
  else if e = 'n' then some '\n'
  else if e = 'r' then some '\r'
  else if e = 't' then some '\t'
  else none

/-- The low surrogate of an escape that follows a high surrogate `rr`, when the two
make a valid pair (`utf16.DecodeRune`). -/
def lowSurrogate (rr : Nat) (s : List Char) : Option Nat :=
  match s with
  | p :: q :: a :: b :: c :: d :: _ =>
    if p = '\\' ∧ q = 'u' ∧ 0xD800 ≤ rr ∧ rr < 0xDC00 then
      match getu4 a b c d with
      | some r1 => if 0xDC00 ≤ r1 ∧ r1 < 0xE000 then some r1 else none
      | none => none
    else none
  | _ => none

/-- A string literal, read from just after its opening quote: the text it denotes
(`unquote`) and the input after its closing quote; `none` when the scanner rejects it
(no closing quote, a control character, a bad escape). A surrogate that is not half of a
valid pair becomes U+FFFD. -/
def scanString : Nat → List Char → Option (List Char × List Char)
  | 0, _ => none
  | _ + 1, [] => none
  | fuel + 1, c :: t =>
    if c = '"' then some ([], t)
    else if c = '\\' then
      match t with
      | [] => none
      | e :: t1 =>
        if e = 'u' then
          match t1 with
          | a :: b :: c2 :: d :: t2 =>
            match getu4 a b c2 d with
            | none => none
            | some rr =>
              if 0xD800 ≤ rr ∧ rr < 0xE000 then
                match lowSurrogate rr t2 with
                | some r1 =>
                  (scanString fuel (t2.drop 6)).map fun r =>
                    (Char.ofNat (0x10000 + (rr - 0xD800) * 0x400 + (r1 - 0xDC00)) :: r.1, r.2)
                | none => (scanString fuel t2).map fun r => (Char.ofNat 0xFFFD :: r.1, r.2)
              else (scanString fuel t2).map fun r => (Char.ofNat rr :: r.1, r.2)
          | _ => none
        else
          match simpleEscape e with
          | some ch => (scanString fuel t1).map fun r => (ch :: r.1, r.2)
          | none => none
    else if c.toNat < 0x20 then none
    else (scanString fuel t).map fun r => (c :: r.1, r.2)

/-- A number, read from its first character: the input after it; `none` when the scanner
rejects it. -/
def skipNumber (s : List Char) : Option (List Char) :=
  let s1 := if s.head? = some '-' then s.tail else s
  let afterInt : Option (List Char) :=
    match s1 with
    | [] => none
    | c :: t =>
      if c = '0' then some t
      else if isDigit c then some (t.dropWhile isDigit)
      else none
  let afterFrac : Option (List Char) :=
    afterInt.bind fun s2 =>
      if s2.head? = some '.' then
        match s2.tail with
        | d :: t => if isDigit d then some (t.dropWhile isDigit) else none
        | [] => none
      else some s2
  afterFrac.bind fun s3 =>
    if s3.head? = some 'e' ∨ s3.head? = some 'E' then
      let s4 := if s3.tail.head? = some '+' ∨ s3.tail.head? = some '-' then s3.tail.tail
        else s3.tail
      match s4 with
      | d :: t => if isDigit d then some (t.dropWhile isDigit) else none
      | [] => none
    else some s3

/-- The constant `maxNestingDepth` of the scanner. -/
def maxNestingDepth : Nat := 10000

/-- What the scanner is to read next inside a value: a value, the elements of an array
from an element on, or the members of an object from a key on. -/
inductive Skip where
  | value
  | elements
  | members
  deriving DecidableEq, Repr

/-- The scanner over one value (or over the rest of an array or object), from its first
character: the input after it, `none` when the text is not valid JSON. `depth` is the
number of arrays and objects open. Of two calls nested in one another at least one reads a character, so a fuel of twice
the length of the input is enough. -/
def skip : Nat → Nat → Skip → List Char → Option (List Char)
  | 0, _, _, _ => none
  | fuel + 1, depth, .value, s =>
    match s with
    | [] => none
    | c :: t =>
      if c = '"' then (scanString (t.length + 1) t).map Prod.snd
      else if c = '{' then
        if depth ≥ maxNestingDepth then none
        else if (skipSpace t).head? = some '}' then some (skipSpace t).tail
        else skip fuel (depth + 1) .members (skipSpace t)
      else if c = '[' then
        if depth ≥ maxNestingDepth then none
        else if (skipSpace t).head? = some ']' then some (skipSpace t).tail
        else skip fuel (depth + 1) .elements (skipSpace t)
      else if c = 't' then (if t.take 3 = ['r', 'u', 'e'] then some (t.drop 3) else none)
      else if c = 'f' then (if t.take 4 = ['a', 'l', 's', 'e'] then some (t.drop 4) else none)
      else if c = 'n' then (if t.take 3 = ['u', 'l', 'l'] then some (t.drop 3) else none)
      else skipNumber s
  | fuel + 1, depth, .elements, s =>
    match skip fuel depth .value s with
    | none => none
    | some r =>
      if (skipSpace r).head? = some ',' then skip fuel depth .elements (skipSpace (skipSpace r).tail)
      else if (skipSpace r).head? = some ']' then some (skipSpace r).tail
      else none
  | fuel + 1, depth, .members, s =>
    if s.head? = some '"' then
      match scanString s.length s.tail with
      | none => none
      | some k =>
        if (skipSpace k.2).head? = some ':' then
          match skip fuel depth .value (skipSpace (skipSpace k.2).tail) with
          | none => none
          | some r =>
            if (skipSpace r).head? = some ',' then
              skip fuel depth .members (skipSpace (skipSpace r).tail)
            else if (skipSpace r).head? = some '}' then some (skipSpace r).tail
            else none
        else none
    else none

/-- The value of a member of the top-level object, as far as a string field can tell:
`null`, a string, or anything else. -/
inductive Member where
  | null
  | str (s : String)
  | other
  deriving DecidableEq, Repr

/-- A JSON document as far as decoding into `Options` can tell: `null`, an object with
its members in order (keys unquoted), or anything else. -/
inductive Doc where
  | null
  | object (ms : List (String × Member))
  | other
  deriving DecidableEq, Repr

/-- The members of the top-level object, read from a key on: the members in order and
the input after the closing brace. -/
def parseMembers : Nat → List Char → Option (List (String × Member) × List Char)
  | 0, _ => none
  | fuel + 1, s =>
    if s.head? = some '"' then
      match scanString s.length s.tail with
      | none => none
      | some k =>
        if (skipSpace k.2).head? = some ':' then
          let v := skipSpace (skipSpace k.2).tail
          let val : Option (Member × List Char) :=
            if v.head? = some '"' then
              (scanString v.length v.tail).map fun r => (Member.str (String.mk r.1), r.2)
            else
              (skip (2 * v.length + 2) 1 .value v).map fun r =>
                (if v.head? = some 'n' then Member.null else Member.other, r)
          match val with
          | none => none
          | some (m, r) =>
            if (skipSpace r).head? = some ',' then
              (parseMembers fuel (skipSpace (skipSpace r).tail)).map fun ms =>
                ((String.mk k.1, m) :: ms.1, ms.2)
            else if (skipSpace r).head? = some '}' then
              some ([(String.mk k.1, m)], (skipSpace r).tail)
            else none
        else none
    else none

/-- The document a blob holds; `none` when the blob is not valid JSON (`checkValid`
fails): one value, with white space around it at most. -/
def parseDoc (blob : String) : Option Doc :=
  let s := skipSpace blob.data
  if s.head? = some '{' then
    if (skipSpace s.tail).head? = some '}' then
      (if skipSpace (skipSpace s.tail).tail = [] then some (Doc.object []) else none)
    else
      match parseMembers s.length (skipSpace s.tail) with
      | none => none
      | some ms => if skipSpace ms.2 = [] then some (Doc.object ms.1) else none
  else
    match skip (2 * s.length + 2) 0 .value s with
    | none => none
    | some r =>
      if skipSpace r = [] then some (if s.head? = some 'n' then Doc.null else Doc.other)
      else none

/-- The fields of `Options`. -/
inductive Field where
  | Format
  | PodName
  | PodNameSpace
  | PodUid
  deriving DecidableEq, Repr

/-- The name the `json` tag gives a field of `Options`. -/
def Field.jsonName : Field → String
  | .Format => "format"
  | .PodName => "kubernetes.io/pod.name"
  | .PodNameSpace => "kubernetes.io/pod.namespace"
  | .PodUid => "kubernetes.io/pod.uid"

/-- The fields of `Options` in the order of declaration. -/
def optionsFields : List Field := [.Format, .PodName, .PodNameSpace, .PodUid]

/-- Simple case folding of a character of a key, towards the ASCII names of the fields:
an upper-case ASCII letter, the Kelvin sign and the long s fold to a lower-case ASCII
letter; the fold orbit of every other ASCII character is the character alone. -/
def foldChar (c : Char) : Char :=
  if 'A'.toNat ≤ c.toNat ∧ c.toNat ≤ 'Z'.toNat then Char.ofNat (c.toNat + 32)
  else if c.toNat = 0x212A then 'k'
  else if c.toNat = 0x017F then 's'
  else c

/-- The field a key of the object is bound to: the field whose name is the key, else the
first field whose name equals the key under case folding, else none. -/
def fieldOf (key : String) : Option Field :=
  match optionsFields.find? (fun f => f.jsonName = key) with
  | some f => some f
  | none => optionsFields.find? (fun f => f.jsonName.data.map foldChar = key.data.map foldChar)

/-- A string stored in a field. -/
def Options.set (v : Options) (f : Field) (s : String) : Options :=
  match f with
  | .Format => { v with Format := s }
  | .PodName => { v with PodName := s }
  | .PodNameSpace => { v with PodNameSpace := s }
  | .PodUid => { v with PodUid := s }

/-- The members of an object decoded into `v`, in order: a member bound to no field is
skipped, a string is stored, `null` leaves the field as it is, any other value is a
type error, after which decoding goes on. The result is the value and whether a type
error was met. -/
def decodeMembers : List (String × Member) → Options → Options × Bool
  | [], v => (v, false)
  | (k, m) :: ms, v =>
    match fieldOf k with
    | none => decodeMembers ms v
    | some f =>
      match m with
      | .str s => decodeMembers ms (v.set f s)
      | .null => decodeMembers ms v
      | .other => ((decodeMembers ms v).1, true)

/-- The call `json.Unmarshal([]byte(blob), &v)` for `v` of type `Options`; `errText blob`
is the text of the error (a `SyntaxError` or an `UnmarshalTypeError`). -/
def jsonUnmarshal (errText : String → String) (blob : String) (v : Options) :
    Except String Options :=
  match parseDoc blob with
  | none => .error (errText blob)
  | some .null => .ok v
  | some .other => .error (errText blob)
  | some (.object ms) =>
    if (decodeMembers ms v).2 then .error (errText blob) else .ok (decodeMembers ms v).1

/-! ## Concrete worlds used to run the operations -/

/-- A world in which the decoder returns `opts` for every blob, `os.MkdirAll` fails with
`mkErr` on the paths in `failing` and succeeds elsewhere, and every external command
produces `output` and returns `cmdErr`. -/
def constEnv (opts : Options) (failing : List String) (mkErr : String)
    (output : String) (cmdErr : Option String) : Env Unit :=
  { unmarshal := fun _ _ => .ok opts,
    requiredErr := "format: non zero value required",
    mkdirAll := fun s p => (if p ∈ failing then some mkErr else none, s),
    combinedOutput := fun s _ _ => ((output, cmdErr), s) }

/-- The options of the pod of the scenario: format ext4, pod p, namespace ns, uid u1. -/
def scenarioOpts : Options :=
  { Format := "ext4", PodName := "p", PodNameSpace := "ns", PodUid := "u1" }

/-- The options blob of the scenario. -/
def scenarioBlob : String :=
  "\x7b\"format\":\"ext4\",\"kubernetes.io/pod.name\":\"p\",\"kubernetes.io/pod.namespace\":\"ns\",\"kubernetes.io/pod.uid\":\"u1\"\x7d"

/-- A world in which every step succeeds. -/
def okEnv : Env Unit := constEnv scenarioOpts [] "" "" none

/-- A world like `constEnv` whose decoder is `jsonUnmarshal`. -/
def jsonEnv (failing : List String) (mkErr : String) (output : String)
    (cmdErr : Option String) : Env Unit :=
  { unmarshal := jsonUnmarshal (fun _ => "json: cannot decode"),
    requiredErr := "format: non zero value required",
    mkdirAll := fun s p => (if p ∈ failing then some mkErr else none, s),
    combinedOutput := fun s _ _ => ((output, cmdErr), s) }

/-! ## Predicates used in the statements -/

/-- A path element proper: not empty, without a slash, and neither `.` nor `..`. -/
def IsElem (e : List Char) : Prop :=
  e ≠ [] ∧ (∀ c ∈ e, c ≠ '/') ∧ e ≠ ['.'] ∧ e ≠ ['.', '.']

/-- The steps of `Mount` on `args`, none of which fails: there are two arguments at
least, the blob decodes, the format is not empty, both directories are created and the
`mount` command returns no error. -/
def MountStepsPass {σ : Type} (env : Env σ) (s : σ) (args : List String) : Prop :=
  ∃ (c blob : String) (rest : List String) (opts : Options),
    args = c :: blob :: rest ∧ env.unmarshal blob {} = .ok opts ∧ opts.Format ≠ "" ∧
    (env.mkdirAll s svcLogBaseDir).1 = none ∧
    (env.mkdirAll (env.mkdirAll s svcLogBaseDir).2 (hostDirOf opts)).1 = none ∧
    (env.combinedOutput (env.mkdirAll (env.mkdirAll s svcLogBaseDir).2 (hostDirOf opts)).2
      mountCmd ["-o", "bind", hostDirOf opts, c]).1.2 = none

/-! ## Lemmas on `path.Clean` -/

theorem dropWhile_length_le (p : Char → Bool) (l : List Char) : (l.dropWhile p).length ≤ l.length := by
  induction l with
  | nil => simp
  | cons a l ih =>
    simp only [List.dropWhile_cons]
    split
    · simp; omega
    · simp

/-- Any fuel that covers the length of the path gives the same result. -/
theorem cleanLoop_fuel (rooted : Bool) :
    ∀ (f1 f2 : Nat) (path out : List Char) (dotdot : Nat),
      path.length ≤ f1 → path.length ≤ f2 →
      cleanLoop rooted f1 path out dotdot = cleanLoop rooted f2 path out dotdot := by
  intro f1
  induction f1 with
  | zero =>
    intro f2 path out dotdot h1 _
    have : path = [] := List.length_eq_zero.mp (Nat.le_zero.mp h1)
    subst this
    cases f2 <;> simp [cleanLoop]
  | succ f1 ih =>
    intro f2 path out dotdot h1 h2
    cases path with
    | nil => cases f2 <;> simp [cleanLoop]
    | cons c t =>
      cases f2 with
      | zero => simp at h2
      | succ f2 =>
        simp only [List.length_cons, Nat.add_le_add_iff_right] at h1 h2
        have ht1 : t.tail.length ≤ f1 := by simp; omega
        have ht2 : t.tail.length ≤ f2 := by simp; omega
        have hd := dropWhile_length_le (· ≠ '/') t
        simp only [cleanLoop]
        split
        · exact ih f2 t out dotdot h1 h2
        · split
          · exact ih f2 t out dotdot h1 h2
          · split
            · split
              · exact ih f2 _ _ _ ht1 ht2
              · split
                · exact ih f2 _ _ _ ht1 ht2
                · exact ih f2 _ _ _ ht1 ht2
            · rename_i hc _ _
              have hdw : (c :: t).dropWhile (· ≠ '/') = t.dropWhile (· ≠ '/') := by
                simp [List.dropWhile_cons, hc]
              rw [hdw]
              exact ih f2 _ _ _ (by omega) (by omega)


theorem takeWhile_elem (e rest : List Char) (he : ∀ c ∈ e, c ≠ '/')
    (hrest : rest = [] ∨ rest.head? = some '/') :
    (e ++ rest).takeWhile (· ≠ '/') = e ∧ (e ++ rest).dropWhile (· ≠ '/') = rest := by
  induction e with
  | nil =>
    rcases hrest with h | h
    · subst h; simp
    · cases rest with
      | nil => simp
      | cons a r =>
        simp at h
        subst h
        simp [List.takeWhile_cons, List.dropWhile_cons]
  | cons a e ih =>
    have ha : a ≠ '/' := he a (by simp)
    have ih2 := ih (fun c hc => he c (by simp [hc]))
    simp [List.takeWhile_cons, List.dropWhile_cons, ha]
    simpa using ih2

theorem cleanLoop_elem (rooted : Bool) (fuel : Nat) (e rest out : List Char) (dotdot : Nat)
    (he : IsElem e) (hrest : rest = [] ∨ rest.head? = some '/')
    (hfuel : (e ++ rest).length ≤ fuel) :
    cleanLoop rooted fuel (e ++ rest) out dotdot =
      cleanLoop rooted fuel rest
        (e.reverse ++
          (if (rooted = true ∧ out.length ≠ 1) ∨ (rooted = false ∧ out.length ≠ 0)
            then '/' :: out else out)) dotdot := by
  obtain ⟨hne, hns, hdot, hdd⟩ := he
  cases e with
  | nil => exact absurd rfl hne
  | cons c t =>
    cases fuel with
    | zero => simp at hfuel
    | succ f =>
      have hc : c ≠ '/' := hns c (by simp)
      have htns : ∀ x ∈ t, x ≠ '/' := fun x hx => hns x (by simp [hx])
      have h2 : ¬ (c = '.' ∧ (t ++ rest = [] ∨ (t ++ rest).head? = some '/')) := by
        rintro ⟨hc1, h⟩
        cases t with
        | nil => exact hdot (by simp [hc1])
        | cons a t1 =>
          rcases h with h | h
          · simp at h
          · simp at h
            exact htns a (by simp) h
      have h3 : ¬ (c = '.' ∧ (t ++ rest).head? = some '.' ∧
          ((t ++ rest).tail = [] ∨ (t ++ rest).tail.head? = some '/')) := by
        rintro ⟨hc1, hh, h⟩
        cases t with
        | nil =>
          simp at hh
          rcases hrest with hr | hr
          · subst hr; simp at hh
          · rw [hr] at hh; simp at hh
        | cons a t1 =>
          simp at hh
          cases t1 with
          | nil => exact hdd (by simp [hc1, hh])
          | cons b t2 =>
            rcases h with h | h
            · simp at h
            · simp at h
              exact htns b (by simp) h
      have htd := takeWhile_elem (c :: t) rest hns hrest
      simp only [List.cons_append] at htd hfuel ⊢
      simp only [cleanLoop, if_neg hc, if_neg h2, if_neg h3, htd.1, htd.2]
      apply cleanLoop_fuel
      · simp at hfuel; omega
      · simp at hfuel; omega

theorem cleanLoop_slash (rooted : Bool) (fuel : Nat) (t out : List Char) (dotdot : Nat)
    (hfuel : ('/' :: t).length ≤ fuel) :
    cleanLoop rooted fuel ('/' :: t) out dotdot = cleanLoop rooted fuel t out dotdot := by
  cases fuel with
  | zero => simp at hfuel
  | succ f =>
    simp only [cleanLoop, if_true]
    apply cleanLoop_fuel
    · simp at hfuel; omega
    · simp at hfuel; omega

theorem cleanLoop_nil (rooted : Bool) (fuel : Nat) (out : List Char) (dotdot : Nat) :
    cleanLoop rooted fuel [] out dotdot = out := by
  cases fuel <;> simp [cleanLoop]

theorem cleanLoop_elem_slash (rooted : Bool) (fuel : Nat) (e rest out : List Char)
    (dotdot : Nat) (he : IsElem e) (hfuel : (e ++ '/' :: rest).length ≤ fuel) :
    cleanLoop rooted fuel (e ++ '/' :: rest) out dotdot =
      cleanLoop rooted fuel rest
        (e.reverse ++
          (if (rooted = true ∧ out.length ≠ 1) ∨ (rooted = false ∧ out.length ≠ 0)
            then '/' :: out else out)) dotdot := by
  rw [cleanLoop_elem rooted fuel e ('/' :: rest) out dotdot he (Or.inr rfl) hfuel]
  apply cleanLoop_slash
  simp at hfuel ⊢
  omega

theorem cleanLoop_elem_end (rooted : Bool) (fuel : Nat) (e out : List Char)
    (dotdot : Nat) (he : IsElem e) (hfuel : e.length ≤ fuel) :
    cleanLoop rooted fuel e out dotdot =
      e.reverse ++
        (if (rooted = true ∧ out.length ≠ 1) ∨ (rooted = false ∧ out.length ≠ 0)
          then '/' :: out else out) := by
  have h := cleanLoop_elem rooted fuel e [] out dotdot he (Or.inl rfl) (by simpa using hfuel)
  rw [List.append_nil, cleanLoop_nil] at h
  exact h

/-- Under the base directory an element proper is appended as it is. -/
theorem cleanChars_base_elem (e : List Char) (he : IsElem e) :
    cleanChars (svcLogBaseDir.data ++ '/' :: e) = svcLogBaseDir.data ++ '/' :: e := by
  have hdata : svcLogBaseDir.data = '/' :: (['v', 'a', 'r'] ++ ('/' :: (['l', 'i', 'b'] ++
      ('/' :: (['a', 'p', 'p'] ++
        ('/' :: ['l', 'o', 'g', '-', 'v', 'o', 'l', 'u', 'm', 'e', 's'])))))) := by decide
  have e1 : IsElem ['v', 'a', 'r'] := ⟨by decide, by decide, by decide, by decide⟩
  have e2 : IsElem ['l', 'i', 'b'] := ⟨by decide, by decide, by decide, by decide⟩
  have e3 : IsElem ['a', 'p', 'p'] := ⟨by decide, by decide, by decide, by decide⟩
  have e4 : IsElem ['l', 'o', 'g', '-', 'v', 'o', 'l', 'u', 'm', 'e', 's'] :=
    ⟨by decide, by decide, by decide, by decide⟩
  have hpath : svcLogBaseDir.data ++ '/' :: e = '/' :: (['v', 'a', 'r'] ++ ('/' :: (['l', 'i', 'b'] ++
      ('/' :: (['a', 'p', 'p'] ++
        ('/' :: (['l', 'o', 'g', '-', 'v', 'o', 'l', 'u', 'm', 'e', 's'] ++
          ('/' :: e)))))))) := by
    rw [hdata]; simp
  rw [hpath]
  unfold cleanChars
  rw [if_neg (by simp)]
  simp only [List.head?_cons, decide_True, if_true, List.tail_cons]
  rw [cleanLoop_elem_slash _ _ _ _ _ _ e1 (by simp),
    cleanLoop_elem_slash _ _ _ _ _ _ e2 (by simp),
    cleanLoop_elem_slash _ _ _ _ _ _ e3 (by simp),
    cleanLoop_elem_slash _ _ _ _ _ _ e4 (by simp),
    cleanLoop_elem_end _ _ _ _ _ he (by simp; omega)]
  simp


/-- The name `podName_podNamespace_podUid` is an element proper when no field holds a
slash. -/
theorem isElem_name (n ns u : String) (hn : '/' ∉ n.data) (hns : '/' ∉ ns.data)
    (hu : '/' ∉ u.data) : IsElem (n ++ "_" ++ ns ++ "_" ++ u).data := by
  have hmem : '_' ∈ (n ++ "_" ++ ns ++ "_" ++ u).data := by
    simp [String.data_append]
  refine ⟨?_, ?_, ?_, ?_⟩
  · intro h; rw [h] at hmem; simp at hmem
  · intro c hc hc2
    subst hc2
    simp [String.data_append] at hc
    rcases hc with h | h | h
    · exact hn h
    · exact hns h
    · exact hu h
  · intro h; rw [h] at hmem; simp at hmem
  · intro h; rw [h] at hmem; simp at hmem

/-- When no field of the pod identity holds a slash, `path.Join` returns the plain
concatenation. -/
theorem hostDirOf_eq (opts : Options) (hn : '/' ∉ opts.PodName.data)
    (hns : '/' ∉ opts.PodNameSpace.data) (hu : '/' ∉ opts.PodUid.data) :
    hostDirOf opts =
      svcLogBaseDir ++ "/" ++ (opts.PodName ++ "_" ++ opts.PodNameSpace ++ "_" ++ opts.PodUid) := by
  have he := isElem_name _ _ _ hn hns hu
  have hb : ¬ (svcLogBaseDir = "") := by decide
  unfold hostDirOf Join
  simp only [List.dropWhile_cons, decide_eq_true_eq, hb, if_false]
  unfold Clean
  have hd : (String.intercalate "/" [svcLogBaseDir,
      opts.PodName ++ "_" ++ opts.PodNameSpace ++ "_" ++ opts.PodUid]).data =
      svcLogBaseDir.data ++
        '/' :: (opts.PodName ++ "_" ++ opts.PodNameSpace ++ "_" ++ opts.PodUid).data := by
    simp [String.intercalate, String.intercalate.go, String.data_append]
  rw [hd, cleanChars_base_elem _ he]
  apply String.ext
  simp [String.data_append]

theorem split_at_sep (c : Char) : ∀ (a a' b b' : List Char), c ∉ a → c ∉ a' →
    a ++ c :: b = a' ++ c :: b' → a = a' ∧ b = b' := by
  intro a
  induction a with
  | nil =>
    intro a' b b' _ ha' h
    cases a' with
    | nil => simpa using h
    | cons x a' =>
      simp at h
      exact absurd h.1 (by intro hx; exact ha' (by simp [hx]))
  | cons x a ih =>
    intro a' b b' ha ha' h
    cases a' with
    | nil =>
      simp at h
      exact absurd h.1 (by intro hx; exact ha (by simp [hx]))
    | cons y a' =>
      simp at h
      obtain ⟨hxy, h⟩ := h
      have := ih a' b b' (fun hc => ha (by simp [hc])) (fun hc => ha' (by simp [hc])) h
      exact ⟨by rw [hxy, this.1], this.2⟩

/-! ## The paths through `Mount` and `Unmount` -/

theorem checkArgsLen_two (c blob : String) (rest : List String) :
    checkArgsLen (c :: blob :: rest) 2 = none := by
  have h : ¬ (rest.length + 1 + 1 < 2) := by omega
  simp [checkArgsLen, h]

theorem checkArgsLen_one (c : String) (rest : List String) :
    checkArgsLen (c :: rest) 1 = none := by
  simp [checkArgsLen]

theorem mount_short {σ : Type} (env : Env σ) (s : σ) (args : List String) (h : args.length < 2) :
    Mount env s args =
      { out := .response (returnErrorResponse ("mount: invalid args num, " ++ fmtV args)),
        trace := [Event.debugf ("mount args: " ++ fmtV args),
          Event.error ("mount: invalid args num, " ++ fmtV args)],
        state := s } := by
  simp [Mount, mountBody, checkArgsLen, h, deferredLog]

theorem mount_decode_error {σ : Type} (env : Env σ) (s : σ) (c blob : String) (rest : List String) (e : String)
    (hd : env.unmarshal blob {} = .error e) :
    Mount env s (c :: blob :: rest) =
      { out := .response (returnErrorResponse e),
        trace := [Event.debugf ("mount args: " ++ fmtV (c :: blob :: rest)), Event.error e],
        state := s } := by
  simp [Mount, mountBody, checkArgsLen_two, hd, deferredLog]

theorem mount_invalid {σ : Type} (env : Env σ) (s : σ) (c blob : String) (rest : List String) (opts : Options)
    (hd : env.unmarshal blob {} = .ok opts) (hf : opts.Format = "") :
    Mount env s (c :: blob :: rest) =
      { out := .response (returnErrorResponse env.requiredErr),
        trace := [Event.debugf ("mount args: " ++ fmtV (c :: blob :: rest)),
          Event.error env.requiredErr],
        state := s } := by
  simp [Mount, mountBody, checkArgsLen_two, hd, ValidateStruct, hf, deferredLog]

theorem mount_base_error {σ : Type} (env : Env σ) (s : σ) (c blob : String) (rest : List String) (opts : Options) (e : String)
    (hd : env.unmarshal blob {} = .ok opts) (hf : opts.Format ≠ "")
    (hb : (env.mkdirAll s svcLogBaseDir).1 = some e) :
    Mount env s (c :: blob :: rest) =
      { out := .response (returnErrorResponse
          ("create log dir " ++ svcLogBaseDir ++ " failed, " ++ e)),
        trace := [Event.debugf ("mount args: " ++ fmtV (c :: blob :: rest)),
          Event.mkdirAll svcLogBaseDir (some e)],
        state := (env.mkdirAll s svcLogBaseDir).2 } := by
  simp [Mount, mountBody, checkArgsLen_two, hd, ValidateStruct, hf, precreateDir, hb, deferredLog]

theorem mount_host_error {σ : Type} (env : Env σ) (s : σ) (c blob : String) (rest : List String) (opts : Options) (e : String)
    (hd : env.unmarshal blob {} = .ok opts) (hf : opts.Format ≠ "")
    (hb : (env.mkdirAll s svcLogBaseDir).1 = none)
    (hh : (env.mkdirAll (env.mkdirAll s svcLogBaseDir).2 (hostDirOf opts)).1 = some e) :
    Mount env s (c :: blob :: rest) =
      { out := .response (returnErrorResponse ("create hostPath failed, " ++ e)),
        trace := [Event.debugf ("mount args: " ++ fmtV (c :: blob :: rest)),
          Event.mkdirAll svcLogBaseDir none, Event.mkdirAll (hostDirOf opts) (some e),
          Event.error e],
        state := (env.mkdirAll (env.mkdirAll s svcLogBaseDir).2 (hostDirOf opts)).2 } := by
  simp [Mount, mountBody, checkArgsLen_two, hd, ValidateStruct, hf, precreateDir, hb, hh,
    deferredLog]

theorem mount_command_error {σ : Type} (env : Env σ) (s : σ) (c blob : String) (rest : List String) (opts : Options)
    (e : String) (hd : env.unmarshal blob {} = .ok opts) (hf : opts.Format ≠ "")
    (hb : (env.mkdirAll s svcLogBaseDir).1 = none)
    (hh : (env.mkdirAll (env.mkdirAll s svcLogBaseDir).2 (hostDirOf opts)).1 = none)
    (hc : (env.combinedOutput (env.mkdirAll (env.mkdirAll s svcLogBaseDir).2 (hostDirOf opts)).2
      mountCmd ["-o", "bind", hostDirOf opts, c]).1.2 = some e) :
    Mount env s (c :: blob :: rest) =
      { out := .response (returnErrorResponse ("bind mount failed, " ++
          ("run bind mount command failed, hostPath: " ++ hostDirOf opts ++ ", containerPath: "
            ++ c ++ ", error: " ++ e ++ ", output: " ++
            (env.combinedOutput (env.mkdirAll (env.mkdirAll s svcLogBaseDir).2 (hostDirOf opts)).2
              mountCmd ["-o", "bind", hostDirOf opts, c]).1.1))),
        trace := [Event.debugf ("mount args: " ++ fmtV (c :: blob :: rest)),
          Event.mkdirAll svcLogBaseDir none, Event.mkdirAll (hostDirOf opts) none,
          Event.command mountCmd ["-o", "bind", hostDirOf opts, c],
          Event.error ("run bind mount command failed, hostPath: " ++ hostDirOf opts ++
            ", containerPath: " ++ c ++ ", error: " ++ e ++ ", output: " ++
            (env.combinedOutput (env.mkdirAll (env.mkdirAll s svcLogBaseDir).2 (hostDirOf opts)).2
              mountCmd ["-o", "bind", hostDirOf opts, c]).1.1)],
        state := (env.combinedOutput
          (env.mkdirAll (env.mkdirAll s svcLogBaseDir).2 (hostDirOf opts)).2
          mountCmd ["-o", "bind", hostDirOf opts, c]).2 } := by
  simp [Mount, mountBody, checkArgsLen_two, hd, ValidateStruct, hf, precreateDir, hb, hh,
    bindMount, mountCmdArg, hc, deferredLog]

theorem mount_success {σ : Type} (env : Env σ) (s : σ) (c blob : String) (rest : List String) (opts : Options)
    (hd : env.unmarshal blob {} = .ok opts) (hf : opts.Format ≠ "")
    (hb : (env.mkdirAll s svcLogBaseDir).1 = none)
    (hh : (env.mkdirAll (env.mkdirAll s svcLogBaseDir).2 (hostDirOf opts)).1 = none)
    (hc : (env.combinedOutput (env.mkdirAll (env.mkdirAll s svcLogBaseDir).2 (hostDirOf opts)).2
      mountCmd ["-o", "bind", hostDirOf opts, c]).1.2 = none) :
    Mount env s (c :: blob :: rest) =
      { out := .response successResponse,
        trace := [Event.debugf ("mount args: " ++ fmtV (c :: blob :: rest)),
          Event.mkdirAll svcLogBaseDir none, Event.mkdirAll (hostDirOf opts) none,
          Event.command mountCmd ["-o", "bind", hostDirOf opts, c]],
        state := (env.combinedOutput
          (env.mkdirAll (env.mkdirAll s svcLogBaseDir).2 (hostDirOf opts)).2
          mountCmd ["-o", "bind", hostDirOf opts, c]).2 } := by
  simp [Mount, mountBody, checkArgsLen_two, hd, ValidateStruct, hf, precreateDir, hb, hh,
    bindMount, mountCmdArg, hc, deferredLog]

theorem unmount_short {σ : Type} (env : Env σ) (s : σ) : 
    Unmount env s [] =
      { out := .response (returnErrorResponse ("mount: invalid args num, " ++ fmtV [])),
        trace := [Event.debugf ("ummount args: " ++ fmtV []),
          Event.error ("mount: invalid args num, " ++ fmtV [])],
        state := s } := by
  simp [Unmount, unmountBody, checkArgsLen, deferredLog]

theorem unmount_error {σ : Type} (env : Env σ) (s : σ) (c : String) (rest : List String) (e : String)
    (hc : (env.combinedOutput s unmountCmd [c]).1.2 = some e) :
    Unmount env s (c :: rest) =
      { out := .response (returnErrorResponse ("unmount container path " ++ c ++ " failed, " ++
          Sprintf0 (env.combinedOutput s unmountCmd [c]).1.1)),
        trace := [Event.debugf ("ummount args: " ++ fmtV (c :: rest)),
          Event.command unmountCmd [c],
          Event.error (Sprintf0 (env.combinedOutput s unmountCmd [c]).1.1)],
        state := (env.combinedOutput s unmountCmd [c]).2 } := by
  simp [Unmount, unmountBody, checkArgsLen_one, unMount, hc, deferredLog]

theorem unmount_success {σ : Type} (env : Env σ) (s : σ) (c : String) (rest : List String)
    (hc : (env.combinedOutput s unmountCmd [c]).1.2 = none) :
    Unmount env s (c :: rest) =
      { out := .response successResponse,
        trace := [Event.debugf ("ummount args: " ++ fmtV (c :: rest)),
          Event.command unmountCmd [c]],
        state := (env.combinedOutput s unmountCmd [c]).2 } := by
  simp [Unmount, unmountBody, checkArgsLen_one, unMount, hc, deferredLog]

/-! ## Traces and outcomes -/

theorem dirsAfter_append (tr1 : List Event) : ∀ (dirs : List String) (tr2 : List Event),
    dirsAfter dirs (tr1 ++ tr2) = dirsAfter (dirsAfter dirs tr1) tr2 := by
  induction tr1 with
  | nil => intro dirs tr2; rfl
  | cons e tr1 ih =>
    intro dirs tr2
    cases e with
    | debugf m => simpa [dirsAfter] using ih dirs tr2
    | error m => simpa [dirsAfter] using ih dirs tr2
    | command n a => simpa [dirsAfter] using ih dirs tr2
    | mkdirAll p err =>
      cases err with
      | none => simpa [dirsAfter] using ih (p :: dirs) tr2
      | some x => simpa [dirsAfter] using ih dirs tr2

theorem failure_ne_success (m : String) :
    Outcome.response (returnErrorResponse m) ≠ Outcome.response successResponse := by
  simp [returnErrorResponse, successResponse]

theorem mount_success_iff {σ : Type} (env : Env σ) (s : σ) (args : List String) :
    (Mount env s args).out = .response successResponse ↔ MountStepsPass env s args := by
  constructor
  · intro h
    match args with
    | [] => rw [mount_short env s [] (by simp)] at h; exact absurd h (failure_ne_success _)
    | [c] => rw [mount_short env s [c] (by simp)] at h; exact absurd h (failure_ne_success _)
    | c :: blob :: rest =>
      cases hd : env.unmarshal blob {} with
      | error e =>
        rw [mount_decode_error env s c blob rest e hd] at h
        exact absurd h (failure_ne_success _)
      | ok opts =>
        by_cases hf : opts.Format = ""
        · rw [mount_invalid env s c blob rest opts hd hf] at h
          exact absurd h (failure_ne_success _)
        · cases hb : (env.mkdirAll s svcLogBaseDir).1 with
          | some e =>
            rw [mount_base_error env s c blob rest opts e hd hf hb] at h
            exact absurd h (failure_ne_success _)
          | none =>
            cases hh : (env.mkdirAll (env.mkdirAll s svcLogBaseDir).2 (hostDirOf opts)).1 with
            | some e =>
              rw [mount_host_error env s c blob rest opts e hd hf hb hh] at h
              exact absurd h (failure_ne_success _)
            | none =>
              cases hc : (env.combinedOutput
                  (env.mkdirAll (env.mkdirAll s svcLogBaseDir).2 (hostDirOf opts)).2
                  mountCmd ["-o", "bind", hostDirOf opts, c]).1.2 with
              | some e =>
                rw [mount_command_error env s c blob rest opts e hd hf hb hh hc] at h
                exact absurd h (failure_ne_success _)
              | none => exact ⟨c, blob, rest, opts, rfl, hd, hf, hb, hh, hc⟩
  · rintro ⟨c, blob, rest, opts, rfl, hd, hf, hb, hh, hc⟩
    rw [mount_success env s c blob rest opts hd hf hb hh hc]

theorem mount_outcome {σ : Type} (env : Env σ) (s : σ) (args : List String) :
    (Mount env s args).out = .response successResponse
      ∨ ∃ m, (Mount env s args).out = .response (returnErrorResponse m) := by
  match args with
  | [] => rw [mount_short env s [] (by simp)]; exact Or.inr ⟨_, rfl⟩
  | [c] => rw [mount_short env s [c] (by simp)]; exact Or.inr ⟨_, rfl⟩
  | c :: blob :: rest =>
    cases hd : env.unmarshal blob {} with
    | error e => rw [mount_decode_error env s c blob rest e hd]; exact Or.inr ⟨_, rfl⟩
    | ok opts =>
      by_cases hf : opts.Format = ""
      · rw [mount_invalid env s c blob rest opts hd hf]; exact Or.inr ⟨_, rfl⟩
      · cases hb : (env.mkdirAll s svcLogBaseDir).1 with
        | some e =>
          rw [mount_base_error env s c blob rest opts e hd hf hb]; exact Or.inr ⟨_, rfl⟩
        | none =>
          cases hh : (env.mkdirAll (env.mkdirAll s svcLogBaseDir).2 (hostDirOf opts)).1 with
          | some e =>
            rw [mount_host_error env s c blob rest opts e hd hf hb hh]; exact Or.inr ⟨_, rfl⟩
          | none =>
            cases hc : (env.combinedOutput
                (env.mkdirAll (env.mkdirAll s svcLogBaseDir).2 (hostDirOf opts)).2
                mountCmd ["-o", "bind", hostDirOf opts, c]).1.2 with
            | some e =>
              rw [mount_command_error env s c blob rest opts e hd hf hb hh hc]
              exact Or.inr ⟨_, rfl⟩
            | none =>
              rw [mount_success env s c blob rest opts hd hf hb hh hc]; exact Or.inl rfl

theorem unmount_outcome {σ : Type} (env : Env σ) (s : σ) (args : List String) :
    (Unmount env s args).out = .response successResponse
      ∨ ∃ m, (Unmount env s args).out = .response (returnErrorResponse m) := by
  match args with
  | [] => rw [unmount_short env s]; exact Or.inr ⟨_, rfl⟩
  | c :: rest =>
    cases hc : (env.combinedOutput s unmountCmd [c]).1.2 with
    | some e => rw [unmount_error env s c rest e hc]; exact Or.inr ⟨_, rfl⟩
    | none => rw [unmount_success env s c rest hc]; exact Or.inl rfl

theorem mount_effects_accepted {σ : Type} (env : Env σ) (s : σ) (c blob : String)
    (rest : List String) (opts : Options) (hd : env.unmarshal blob {} = .ok opts)
    (hf : opts.Format ≠ "") :
    ∃ tl, effects (Mount env s (c :: blob :: rest)).trace =
        Event.mkdirAll svcLogBaseDir (env.mkdirAll s svcLogBaseDir).1 :: tl
      ∧ ((env.mkdirAll s svcLogBaseDir).1 = none →
        ∃ tl2, tl = Event.mkdirAll (hostDirOf opts)
          (env.mkdirAll (env.mkdirAll s svcLogBaseDir).2 (hostDirOf opts)).1 :: tl2) := by
  cases hb : (env.mkdirAll s svcLogBaseDir).1 with
  | some e =>
    rw [mount_base_error env s c blob rest opts e hd hf hb]
    exact ⟨[], by simp [effects, Event.isEffect], by simp⟩
  | none =>
    cases hh : (env.mkdirAll (env.mkdirAll s svcLogBaseDir).2 (hostDirOf opts)).1 with
    | some e =>
      rw [mount_host_error env s c blob rest opts e hd hf hb hh]
      exact ⟨[Event.mkdirAll (hostDirOf opts) (some e)], by simp [effects, Event.isEffect],
        fun _ => ⟨[], rfl⟩⟩
    | none =>
      cases hc : (env.combinedOutput
          (env.mkdirAll (env.mkdirAll s svcLogBaseDir).2 (hostDirOf opts)).2
          mountCmd ["-o", "bind", hostDirOf opts, c]).1.2 with
      | some e =>
        rw [mount_command_error env s c blob rest opts e hd hf hb hh hc]
        exact ⟨[Event.mkdirAll (hostDirOf opts) none,
          Event.command mountCmd ["-o", "bind", hostDirOf opts, c]],
          by simp [effects, Event.isEffect], fun _ => ⟨_, rfl⟩⟩
      | none =>
        rw [mount_success env s c blob rest opts hd hf hb hh hc]
        exact ⟨[Event.mkdirAll (hostDirOf opts) none,
          Event.command mountCmd ["-o", "bind", hostDirOf opts, c]],
          by simp [effects, Event.isEffect], fun _ => ⟨_, rfl⟩⟩

/-! ## Decoding the blob -/

theorem set_format_of_ne (v : Options) (f : Field) (s : String) (h : f ≠ Field.Format) :
    (v.set f s).Format = v.Format := by
  cases f <;> simp [Options.set] at h ⊢

theorem decodeMembers_format_missing : ∀ (ms : List (String × Member)) (v : Options),
    (∀ m ∈ ms, fieldOf m.1 ≠ some Field.Format) →
    (decodeMembers ms v).1.Format = v.Format := by
  intro ms
  induction ms with
  | nil => intro v _; rfl
  | cons m ms ih =>
    intro v h
    obtain ⟨k, x⟩ := m
    have hk : fieldOf k ≠ some Field.Format := h (k, x) (by simp)
    have hms : ∀ m ∈ ms, fieldOf m.1 ≠ some Field.Format := fun m hm => h m (by simp [hm])
    simp only [decodeMembers]
    cases hf : fieldOf k with
    | none => exact ih v hms
    | some f =>
      have hne : f ≠ Field.Format := by
        intro hc; rw [hc] at hf; exact hk hf
      cases x with
      | null => exact ih v hms
      | other => exact ih v hms
      | str t =>
        simp only []
        rw [ih _ hms, set_format_of_ne v f t hne]

theorem decodeMembers_append : ∀ (pre post : List (String × Member)) (v : Options),
    (decodeMembers (pre ++ post) v).1 = (decodeMembers post (decodeMembers pre v).1).1 := by
  intro pre
  induction pre with
  | nil => intro post v; rfl
  | cons m pre ih =>
    intro post v
    obtain ⟨k, x⟩ := m
    simp only [List.cons_append, decodeMembers]
    cases fieldOf k with
    | none => exact ih post v
    | some f =>
      cases x with
      | null => exact ih post v
      | other => exact ih post v
      | str t => exact ih post _

theorem decodeMembers_format_empty (pre post : List (String × Member)) (k : String)
    (v : Options) (hk : fieldOf k = some Field.Format)
    (hpost : ∀ m ∈ post, fieldOf m.1 ≠ some Field.Format) :
    (decodeMembers (pre ++ (k, Member.str "") :: post) v).1.Format = "" := by
  rw [decodeMembers_append]
  simp only [decodeMembers, hk]
  rw [decodeMembers_format_missing post _ hpost]
  rfl

/-- What `Mount` does when the decoder leaves no usable format: Failure with the decode
or the validation text, nothing done. -/
theorem mount_rejected {σ : Type} (env : Env σ) (s : σ) (c blob : String)
    (rest : List String) (e : String)
    (h : ∀ opts, env.unmarshal blob {} = .ok opts → opts.Format = "")
    (he : ∀ x, env.unmarshal blob {} = .error x → x = e) :
    ((Mount env s (c :: blob :: rest)).out = .response ⟨Status.Failure, e⟩
        ∨ (Mount env s (c :: blob :: rest)).out = .response ⟨Status.Failure, env.requiredErr⟩)
      ∧ effects (Mount env s (c :: blob :: rest)).trace = []
      ∧ (Mount env s (c :: blob :: rest)).state = s := by
  cases hd : env.unmarshal blob {} with
  | error x =>
    rw [mount_decode_error env s c blob rest x hd, he x hd]
    exact ⟨Or.inl rfl, by simp [effects, Event.isEffect], rfl⟩
  | ok opts =>
    rw [mount_invalid env s c blob rest opts hd (h opts hd)]
    exact ⟨Or.inr rfl, by simp [effects, Event.isEffect], rfl⟩

theorem mount_accepted_iff {σ : Type} (env : Env σ) (s : σ) (c blob : String)
    (rest : List String) :
    effects (Mount env s (c :: blob :: rest)).trace ≠ []
      ↔ ∃ opts, env.unmarshal blob {} = .ok opts ∧ opts.Format ≠ "" := by
  constructor
  · intro h
    cases hd : env.unmarshal blob {} with
    | error e =>
      rw [mount_decode_error env s c blob rest e hd] at h
      exact absurd (by simp [effects, Event.isEffect]) h
    | ok opts =>
      by_cases hf : opts.Format = ""
      · rw [mount_invalid env s c blob rest opts hd hf] at h
        exact absurd (by simp [effects, Event.isEffect]) h
      · exact ⟨opts, rfl, hf⟩
  · rintro ⟨opts, hd, hf⟩
    obtain ⟨tl, h, _⟩ := mount_effects_accepted env s c blob rest opts hd hf
    rw [h]
    simp

theorem jsonUnmarshal_ok_iff (errText : String → String) (blob : String) (opts : Options) :
    jsonUnmarshal errText blob {} = .ok opts
      ↔ (parseDoc blob = some Doc.null ∧ opts = {})
        ∨ ∃ ms, parseDoc blob = some (Doc.object ms) ∧ (decodeMembers ms {}).2 = false
          ∧ opts = (decodeMembers ms {}).1 := by
  unfold jsonUnmarshal
  cases hp : parseDoc blob with
  | none => simp
  | some d =>
    cases d with
    | null =>
      simp only [Except.ok.injEq, true_and]
      constructor
      · intro h; exact Or.inl h.symm
      · rintro (h | ⟨ms, h, _⟩)
        · exact h.symm
        · simp at h
    | other => simp
    | object ms =>
      by_cases hb : (decodeMembers ms {}).2 = true
      · simp [hb]
      · have hb2 : (decodeMembers ms {}).2 = false := by simpa using hb
        simp only [hb2, Bool.false_eq_true, if_false, Except.ok.injEq]
        constructor
        · intro h; exact Or.inr ⟨ms, rfl, hb2, h.symm⟩
        · rintro (⟨h, _⟩ | ⟨ms2, h, _, h3⟩)
          · simp at h
          · simp only [Option.some.injEq, Doc.object.injEq] at h
            subst h
            exact h3.symm

theorem jsonUnmarshal_error (errText : String → String) (blob : String) (v : Options)
    (x : String) (h : jsonUnmarshal errText blob v = .error x) : x = errText blob := by
  unfold jsonUnmarshal at h
  split at h
  · simpa using h.symm
  · simp at h
  · simpa using h.symm
  · split at h
    · simpa using h.symm
    · simp at h

/-! ## The claims -/

/-- C1. When the blob decodes to a non-empty format and the pod fields (n, ns, u), and
both directory creations and the `mount` command succeed, `Mount([c, blob])` returns
Success with message "Success"; what it does to the filesystem and with commands is
exactly: `os.MkdirAll` of `/var/lib/app/log-volumes`, `os.MkdirAll` of the host
directory `path.Join("/var/lib/app/log-volumes", n + "_" + ns + "_" + u)`, and one run
of `mount -o bind <hostDir> <c>`; both directories exist afterwards. When no pod field
holds a slash the host directory is "/var/lib/app/log-volumes" + "/" + n + "_" + ns +
"_" + u; for (p, ns, u1) it is `/var/lib/app/log-volumes/p_ns_u1`. -/
theorem mount_success_contract {σ : Type} (env : Env σ) (s : σ) (c blob : String)
    (fmt n ns u : String)
    (hd : env.unmarshal blob {}
      = .ok { Format := fmt, PodName := n, PodNameSpace := ns, PodUid := u })
    (hf : fmt ≠ "")
    (hb : (env.mkdirAll s "/var/lib/app/log-volumes").1 = none)
    (hh : (env.mkdirAll (env.mkdirAll s "/var/lib/app/log-volumes").2
      (Join ["/var/lib/app/log-volumes", n ++ "_" ++ ns ++ "_" ++ u])).1 = none)
    (hc : (env.combinedOutput
      (env.mkdirAll (env.mkdirAll s "/var/lib/app/log-volumes").2
        (Join ["/var/lib/app/log-volumes", n ++ "_" ++ ns ++ "_" ++ u])).2
      "mount" ["-o", "bind", Join ["/var/lib/app/log-volumes", n ++ "_" ++ ns ++ "_" ++ u],
        c]).1.2 = none) :
    (Mount env s [c, blob]).out = .response ⟨Status.Success, "Success"⟩
      ∧ effects (Mount env s [c, blob]).trace =
        [Event.mkdirAll "/var/lib/app/log-volumes" none,
          Event.mkdirAll (Join ["/var/lib/app/log-volumes", n ++ "_" ++ ns ++ "_" ++ u]) none,
          Event.command "mount"
            ["-o", "bind", Join ["/var/lib/app/log-volumes", n ++ "_" ++ ns ++ "_" ++ u], c]]
      ∧ (∀ dirs : List String,
          "/var/lib/app/log-volumes" ∈ dirsAfter dirs (Mount env s [c, blob]).trace
            ∧ Join ["/var/lib/app/log-volumes", n ++ "_" ++ ns ++ "_" ++ u]
              ∈ dirsAfter dirs (Mount env s [c, blob]).trace)
      ∧ ('/' ∉ n.data → '/' ∉ ns.data → '/' ∉ u.data →
          Join ["/var/lib/app/log-volumes", n ++ "_" ++ ns ++ "_" ++ u]
            = "/var/lib/app/log-volumes" ++ "/" ++ n ++ "_" ++ ns ++ "_" ++ u)
      ∧ Join ["/var/lib/app/log-volumes", "p" ++ "_" ++ "ns" ++ "_" ++ "u1"]
        = "/var/lib/app/log-volumes/p_ns_u1" := by
  rw [mount_success env s c blob [] _ hd hf hb hh hc]
  refine ⟨rfl, ?_, ?_, ?_, by decide⟩
  · simp [effects, Event.isEffect, svcLogBaseDir, mountCmd, hostDirOf]
  · intro dirs
    simp [dirsAfter, svcLogBaseDir, hostDirOf]
  · intro hn hns hu
    have h := hostDirOf_eq { Format := fmt, PodName := n, PodNameSpace := ns, PodUid := u }
      hn hns hu
    simp only [hostDirOf, svcLogBaseDir] at h
    rw [h]
    simp [String.append_assoc]

/-- C1 on the scenario of the specification, the blob decoded by `json.Unmarshal`, in a
world where every step succeeds. -/
theorem mount_success_contract_witness :
    (Mount (jsonEnv [] "" "" none) () ["/var/lib/containers/x/vol", scenarioBlob]).out
        = .response ⟨Status.Success, "Success"⟩
      ∧ effects (Mount (jsonEnv [] "" "" none) ()
          ["/var/lib/containers/x/vol", scenarioBlob]).trace =
        [Event.mkdirAll "/var/lib/app/log-volumes" none,
          Event.mkdirAll "/var/lib/app/log-volumes/p_ns_u1" none,
          Event.command "mount"
            ["-o", "bind", "/var/lib/app/log-volumes/p_ns_u1", "/var/lib/containers/x/vol"]] := by
  have h := mount_success_contract (jsonEnv [] "" "" none) () "/var/lib/containers/x/vol"
    scenarioBlob "ext4" "p" "ns" "u1" rfl (by decide) rfl rfl rfl
  have hp := h.2.2.2.2
  rw [hp] at h
  exact ⟨h.1, h.2.1⟩

/-- C2. The response of `Mount` is decided by the first failing step, in the order
argument count, JSON decode, format validation, base directory, host directory, bind
mount. A failing step ends the call: no later step appears among the effects (no
directory is created and no command is run after a decode or validation failure, no
command after a directory failure), and the response is Failure with that step's error
as message: the decode or validation text, "create hostPath failed, <e>", or "bind mount
failed, run bind mount command failed, hostPath: <h>, containerPath: <c>, error: <e>,
output: <o>" ending in the captured output. `Mount` returns Success exactly when no step
fails, and it always returns a response. -/
theorem mount_first_failing_step {σ : Type} (env : Env σ) (s : σ) (args : List String) :
    (args.length < 2 →
      (Mount env s args).out
          = .response ⟨Status.Failure, "mount: invalid args num, " ++ fmtV args⟩
        ∧ effects (Mount env s args).trace = [])
    ∧ (∀ (c blob : String) (rest : List String), args = c :: blob :: rest →
      (∀ e, env.unmarshal blob {} = .error e →
        (Mount env s args).out = .response ⟨Status.Failure, e⟩
          ∧ effects (Mount env s args).trace = [])
      ∧ (∀ opts, env.unmarshal blob {} = .ok opts →
        (opts.Format = "" →
          (Mount env s args).out = .response ⟨Status.Failure, env.requiredErr⟩
            ∧ effects (Mount env s args).trace = [])
        ∧ (opts.Format ≠ "" →
          (∀ e, (env.mkdirAll s svcLogBaseDir).1 = some e →
            (Mount env s args).out = .response ⟨Status.Failure, "create log dir /var/lib/app/log-volumes failed, " ++ e⟩
              ∧ effects (Mount env s args).trace = [Event.mkdirAll svcLogBaseDir (some e)])
          ∧ ((env.mkdirAll s svcLogBaseDir).1 = none →
            (∀ e, (env.mkdirAll (env.mkdirAll s svcLogBaseDir).2 (hostDirOf opts)).1 = some e →
              (Mount env s args).out = .response ⟨Status.Failure, "create hostPath failed, " ++ e⟩
                ∧ effects (Mount env s args).trace =
                  [Event.mkdirAll svcLogBaseDir none, Event.mkdirAll (hostDirOf opts) (some e)])
            ∧ ((env.mkdirAll (env.mkdirAll s svcLogBaseDir).2 (hostDirOf opts)).1 = none →
              (∀ e, (env.combinedOutput
                  (env.mkdirAll (env.mkdirAll s svcLogBaseDir).2 (hostDirOf opts)).2
                  "mount" ["-o", "bind", hostDirOf opts, c]).1.2 = some e →
                (Mount env s args).out = .response ⟨Status.Failure, "bind mount failed, run bind mount command failed, hostPath: "
                      ++ hostDirOf opts ++ ", containerPath: " ++ c ++ ", error: " ++ e
                      ++ ", output: " ++ (env.combinedOutput
                        (env.mkdirAll (env.mkdirAll s svcLogBaseDir).2 (hostDirOf opts)).2
                        "mount" ["-o", "bind", hostDirOf opts, c]).1.1⟩
                  ∧ effects (Mount env s args).trace =
                    [Event.mkdirAll svcLogBaseDir none, Event.mkdirAll (hostDirOf opts) none,
                      Event.command "mount" ["-o", "bind", hostDirOf opts, c]])
              ∧ ((env.combinedOutput
                  (env.mkdirAll (env.mkdirAll s svcLogBaseDir).2 (hostDirOf opts)).2
                  "mount" ["-o", "bind", hostDirOf opts, c]).1.2 = none →
                (Mount env s args).out
                    = .response ⟨Status.Success, "Success"⟩
                  ∧ effects (Mount env s args).trace =
                    [Event.mkdirAll svcLogBaseDir none, Event.mkdirAll (hostDirOf opts) none,
                      Event.command "mount" ["-o", "bind", hostDirOf opts, c]]))))))
    ∧ ((Mount env s args).out = .response ⟨Status.Success, "Success"⟩
        ↔ MountStepsPass env s args)
    ∧ (∃ m, (Mount env s args).out = .response ⟨Status.Success, "Success"⟩
        ∨ (Mount env s args).out = .response ⟨Status.Failure, m⟩) := by
  refine ⟨?_, ?_, mount_success_iff env s args, ?_⟩
  · intro h
    rw [mount_short env s args h]
    exact ⟨rfl, by simp [effects, Event.isEffect]⟩
  · rintro c blob rest rfl
    refine ⟨?_, ?_⟩
    · intro e hd
      rw [mount_decode_error env s c blob rest e hd]
      exact ⟨rfl, by simp [effects, Event.isEffect]⟩
    · intro opts hd
      refine ⟨?_, ?_⟩
      · intro hf
        rw [mount_invalid env s c blob rest opts hd hf]
        exact ⟨rfl, by simp [effects, Event.isEffect]⟩
      · intro hf
        refine ⟨?_, ?_⟩
        · intro e hb
          rw [mount_base_error env s c blob rest opts e hd hf hb]
          refine ⟨?_, by simp [effects, Event.isEffect]⟩
          simp [returnErrorResponse, svcLogBaseDir, String.append_assoc]
        · intro hb
          refine ⟨?_, ?_⟩
          · intro e hh
            rw [mount_host_error env s c blob rest opts e hd hf hb hh]
            exact ⟨rfl, by simp [effects, Event.isEffect]⟩
          · intro hh
            refine ⟨?_, ?_⟩
            · intro e hc
              rw [mount_command_error env s c blob rest opts e hd hf hb hh hc]
              refine ⟨?_, by simp [effects, Event.isEffect, mountCmd]⟩
              simp only [returnErrorResponse, mountCmd, ← String.append_assoc]
              rfl
            · intro hc
              rw [mount_success env s c blob rest opts hd hf hb hh hc]
              exact ⟨rfl, by simp [effects, Event.isEffect, mountCmd]⟩
  · rcases mount_outcome env s args with h | ⟨m, h⟩
    · exact ⟨"", Or.inl h⟩
    · exact ⟨m, Or.inr h⟩

/-- C2 on the scenario of the specification: the `mount` command exits 1 with output
"mount: permission denied". -/
theorem mount_first_failing_step_witness :
    (Mount (constEnv scenarioOpts [] "" "mount: permission denied" (some "exit status 1")) ()
        ["/var/lib/containers/x/vol", scenarioBlob]).out
      = .response ⟨Status.Failure, "bind mount failed, run bind mount command failed, hostPath: /var/lib/app/log-volumes/p_ns_u1, containerPath: /var/lib/containers/x/vol, error: exit status 1, output: mount: permission denied"⟩ := by
  have h := (mount_first_failing_step
    (constEnv scenarioOpts [] "" "mount: permission denied" (some "exit status 1")) ()
    ["/var/lib/containers/x/vol", scenarioBlob]).2.1
    "/var/lib/containers/x/vol" scenarioBlob [] rfl
  have h1 := ((h.2 scenarioOpts rfl).2 (by decide)).2 rfl
  have h2 := ((h1.2 rfl).1 "exit status 1" rfl).1
  exact h2.trans rfl

/-- C3. With fewer than two arguments `Mount` returns Failure with message "mount: invalid
args num, " followed by the rendering of the arguments, touches neither the filesystem
nor any command, and leaves the world as it was. `Unmount` of the empty list returns
Failure with the same kind of message and runs no command. Neither operation ever indexes
past the end of its arguments. -/
theorem short_args_rejected {σ : Type} (env : Env σ) (s : σ) (args : List String)
    (h : args.length < 2) :
    ((Mount env s args).out
        = .response ⟨Status.Failure, "mount: invalid args num, " ++ fmtV args⟩
      ∧ effects (Mount env s args).trace = []
      ∧ (Mount env s args).state = s)
    ∧ ((Unmount env s []).out = .response ⟨Status.Failure, "mount: invalid args num, []"⟩
      ∧ effects (Unmount env s []).trace = []
      ∧ (Unmount env s []).state = s)
    ∧ (∀ xs : List String, (Mount env s xs).out ≠ .indexOutOfRange
        ∧ (Unmount env s xs).out ≠ .indexOutOfRange) := by
  refine ⟨?_, ?_, ?_⟩
  · rw [mount_short env s args h]
    exact ⟨rfl, by simp [effects, Event.isEffect], rfl⟩
  · rw [unmount_short env s]
    exact ⟨rfl, by simp [effects, Event.isEffect], rfl⟩
  · intro xs
    constructor
    · rcases mount_outcome env s xs with h | ⟨m, h⟩ <;> rw [h] <;> simp
    · rcases unmount_outcome env s xs with h | ⟨m, h⟩ <;> rw [h] <;> simp

/-- C3 on the two argument lists of the specification. -/
theorem short_args_rejected_witness :
    ["onlyOnePath"].length < 2
      ∧ (Mount okEnv () ["onlyOnePath"]).out
        = .response ⟨Status.Failure, "mount: invalid args num, [onlyOnePath]"⟩
      ∧ effects (Mount okEnv () ["onlyOnePath"]).trace = [] :=
  ⟨by decide,
    ((short_args_rejected okEnv () ["onlyOnePath"] (by decide)).1.1).trans (by decide),
    (short_args_rejected okEnv () ["onlyOnePath"] (by decide)).1.2.1⟩

/-- C4 counterexample: a list with surplus arguments is not rejected. `Mount` of three
arguments and `Unmount` of two return Success. -/
theorem surplus_args_accepted :
    ["/var/lib/containers/x/vol", scenarioBlob, "extra"].length ≠ 2
      ∧ (Mount okEnv () ["/var/lib/containers/x/vol", scenarioBlob, "extra"]).out
        = .response ⟨Status.Success, "Success"⟩
      ∧ ["/var/lib/containers/x/vol", "extra"].length ≠ 1
      ∧ (Unmount okEnv () ["/var/lib/containers/x/vol", "extra"]).out
        = .response ⟨Status.Success, "Success"⟩ := by
  decide

/-- C4 as amended. `Mount` needs at least two arguments and `Unmount` at least one: a
shorter list makes them return Failure. Surplus arguments are ignored: the response, the
effects and the final state are those of the call on the first two arguments (`Mount`) or
on the first one (`Unmount`). -/
theorem args_at_least {σ : Type} (env : Env σ) (s : σ) :
    (∀ args : List String, args.length < 2 →
      ∃ m, (Mount env s args).out = .response ⟨Status.Failure, m⟩)
    ∧ (∀ args : List String, args.length < 1 →
      ∃ m, (Unmount env s args).out = .response ⟨Status.Failure, m⟩)
    ∧ (∀ (c blob : String) (rest : List String),
      (Mount env s (c :: blob :: rest)).out = (Mount env s [c, blob]).out
        ∧ effects (Mount env s (c :: blob :: rest)).trace = effects (Mount env s [c, blob]).trace
        ∧ (Mount env s (c :: blob :: rest)).state = (Mount env s [c, blob]).state)
    ∧ (∀ (c : String) (rest : List String),
      (Unmount env s (c :: rest)).out = (Unmount env s [c]).out
        ∧ effects (Unmount env s (c :: rest)).trace = effects (Unmount env s [c]).trace
        ∧ (Unmount env s (c :: rest)).state = (Unmount env s [c]).state) := by
  refine ⟨?_, ?_, ?_, ?_⟩
  · intro args h
    rw [mount_short env s args h]
    exact ⟨_, rfl⟩
  · intro args h
    have : args = [] := List.length_eq_zero.mp (by omega)
    subst this
    rw [unmount_short env s]
    exact ⟨_, rfl⟩
  · intro c blob rest
    cases hd : env.unmarshal blob {} with
    | error e =>
      rw [mount_decode_error env s c blob rest e hd, mount_decode_error env s c blob [] e hd]
      simp [effects, Event.isEffect]
    | ok opts =>
      by_cases hf : opts.Format = ""
      · rw [mount_invalid env s c blob rest opts hd hf, mount_invalid env s c blob [] opts hd hf]
        simp [effects, Event.isEffect]
      · cases hb : (env.mkdirAll s svcLogBaseDir).1 with
        | some e =>
          rw [mount_base_error env s c blob rest opts e hd hf hb,
            mount_base_error env s c blob [] opts e hd hf hb]
          simp [effects, Event.isEffect]
        | none =>
          cases hh : (env.mkdirAll (env.mkdirAll s svcLogBaseDir).2 (hostDirOf opts)).1 with
          | some e =>
            rw [mount_host_error env s c blob rest opts e hd hf hb hh,
              mount_host_error env s c blob [] opts e hd hf hb hh]
            simp [effects, Event.isEffect]
          | none =>
            cases hc : (env.combinedOutput
                (env.mkdirAll (env.mkdirAll s svcLogBaseDir).2 (hostDirOf opts)).2
                mountCmd ["-o", "bind", hostDirOf opts, c]).1.2 with
            | some e =>
              rw [mount_command_error env s c blob rest opts e hd hf hb hh hc,
                mount_command_error env s c blob [] opts e hd hf hb hh hc]
              simp [effects, Event.isEffect]
            | none =>
              rw [mount_success env s c blob rest opts hd hf hb hh hc,
                mount_success env s c blob [] opts hd hf hb hh hc]
              simp [effects, Event.isEffect]
  · intro c rest
    cases hc : (env.combinedOutput s unmountCmd [c]).1.2 with
    | some e =>
      rw [unmount_error env s c rest e hc, unmount_error env s c [] e hc]
      simp [effects, Event.isEffect]
    | none =>
      rw [unmount_success env s c rest hc, unmount_success env s c [] hc]
      simp [effects, Event.isEffect]

/-- C4 as amended, on the empty list and on a list with one surplus argument. -/
theorem args_at_least_witness :
    (∃ m, (Mount okEnv () ["onlyOnePath"]).out = .response ⟨Status.Failure, m⟩)
      ∧ (Mount okEnv () ["/var/lib/containers/x/vol", scenarioBlob, "extra"]).out
        = (Mount okEnv () ["/var/lib/containers/x/vol", scenarioBlob]).out :=
  ⟨(args_at_least okEnv ()).1 ["onlyOnePath"] (by decide),
    ((args_at_least okEnv ()).2.2.1 "/var/lib/containers/x/vol" scenarioBlob ["extra"]).1⟩

/-- C5. In a world whose decoder is `json.Unmarshal`, `Mount` goes on to the directory
steps (the options are accepted) exactly when the blob is a JSON object that decodes
without a type error and leaves a non-empty format, whatever it holds for the pod fields.
A blob in which format is missing (an object with no member bound to the field `format`)
or empty (the last member bound to it is the empty string), and a blob that is not an
object, make `Mount` return Failure with no directory created, no command run and the
world unchanged. A blob with only the format set decodes to options whose pod fields are
empty and is accepted: the host directory is `/var/lib/app/log-volumes/__`. -/
theorem options_accepted_iff {σ : Type} (env : Env σ) (errText : String → String)
    (hdec : env.unmarshal = jsonUnmarshal errText) (s : σ) (c blob : String)
    (rest : List String) :
    (effects (Mount env s (c :: blob :: rest)).trace ≠ []
        ↔ ∃ ms, parseDoc blob = some (Doc.object ms) ∧ (decodeMembers ms {}).2 = false
          ∧ (decodeMembers ms {}).1.Format ≠ "")
    ∧ (∀ ms, parseDoc blob = some (Doc.object ms) →
      (∀ m ∈ ms, fieldOf m.1 ≠ some Field.Format) →
      ((Mount env s (c :: blob :: rest)).out = .response ⟨Status.Failure, errText blob⟩
          ∨ (Mount env s (c :: blob :: rest)).out
            = .response ⟨Status.Failure, env.requiredErr⟩)
        ∧ effects (Mount env s (c :: blob :: rest)).trace = []
        ∧ (Mount env s (c :: blob :: rest)).state = s)
    ∧ (∀ (pre post : List (String × Member)) (k : String),
      parseDoc blob = some (Doc.object (pre ++ (k, Member.str "") :: post)) →
      fieldOf k = some Field.Format →
      (∀ m ∈ post, fieldOf m.1 ≠ some Field.Format) →
      ((Mount env s (c :: blob :: rest)).out = .response ⟨Status.Failure, errText blob⟩
          ∨ (Mount env s (c :: blob :: rest)).out
            = .response ⟨Status.Failure, env.requiredErr⟩)
        ∧ effects (Mount env s (c :: blob :: rest)).trace = []
        ∧ (Mount env s (c :: blob :: rest)).state = s)
    ∧ ((∀ ms, parseDoc blob ≠ some (Doc.object ms)) →
      ((Mount env s (c :: blob :: rest)).out = .response ⟨Status.Failure, errText blob⟩
          ∨ (Mount env s (c :: blob :: rest)).out
            = .response ⟨Status.Failure, env.requiredErr⟩)
        ∧ effects (Mount env s (c :: blob :: rest)).trace = []
        ∧ (Mount env s (c :: blob :: rest)).state = s)
    ∧ (∀ (k f : String), parseDoc blob = some (Doc.object [(k, Member.str f)]) →
      fieldOf k = some Field.Format → f ≠ "" →
      env.unmarshal blob {}
          = .ok { Format := f, PodName := "", PodNameSpace := "", PodUid := "" }
        ∧ effects (Mount env s (c :: blob :: rest)).trace ≠ []
        ∧ ((env.mkdirAll s "/var/lib/app/log-volumes").1 = none →
          ∃ tl, effects (Mount env s (c :: blob :: rest)).trace =
            Event.mkdirAll "/var/lib/app/log-volumes" none
              :: Event.mkdirAll "/var/lib/app/log-volumes/__"
                (env.mkdirAll (env.mkdirAll s "/var/lib/app/log-volumes").2
                  "/var/lib/app/log-volumes/__").1
              :: tl)) := by
  have hrej : ∀ ms, parseDoc blob = some (Doc.object ms) → (decodeMembers ms {}).1.Format = "" →
      ((Mount env s (c :: blob :: rest)).out = .response ⟨Status.Failure, errText blob⟩
          ∨ (Mount env s (c :: blob :: rest)).out
            = .response ⟨Status.Failure, env.requiredErr⟩)
        ∧ effects (Mount env s (c :: blob :: rest)).trace = []
        ∧ (Mount env s (c :: blob :: rest)).state = s := by
    intro ms hp hfmt
    apply mount_rejected env s c blob rest (errText blob)
    · intro opts hok
      rw [hdec, jsonUnmarshal_ok_iff] at hok
      rcases hok with ⟨h, _⟩ | ⟨ms2, h, _, h3⟩
      · rw [hp] at h; simp at h
      · rw [hp] at h
        simp only [Option.some.injEq, Doc.object.injEq] at h
        subst h
        rw [h3, hfmt]
    · intro x hx
      rw [hdec] at hx
      exact jsonUnmarshal_error errText blob {} x hx
  refine ⟨?_, ?_, ?_, ?_, ?_⟩
  · rw [mount_accepted_iff, hdec]
    constructor
    · rintro ⟨opts, hok, hf⟩
      rw [jsonUnmarshal_ok_iff] at hok
      rcases hok with ⟨_, h2⟩ | ⟨ms, h, h2, h3⟩
      · rw [h2] at hf; exact absurd rfl hf
      · exact ⟨ms, h, h2, by rw [← h3]; exact hf⟩
    · rintro ⟨ms, h, h2, h3⟩
      exact ⟨_, (jsonUnmarshal_ok_iff errText blob _).mpr (Or.inr ⟨ms, h, h2, rfl⟩), h3⟩
  · intro ms hp hmiss
    exact hrej ms hp (decodeMembers_format_missing ms {} hmiss)
  · intro pre post k hp hk hpost
    exact hrej _ hp (decodeMembers_format_empty pre post k {} hk hpost)
  · intro hno
    apply mount_rejected env s c blob rest (errText blob)
    · intro opts hok
      rw [hdec, jsonUnmarshal_ok_iff] at hok
      rcases hok with ⟨_, h2⟩ | ⟨ms, h, _, _⟩
      · rw [h2]
      · exact absurd h (hno ms)
    · intro x hx
      rw [hdec] at hx
      exact jsonUnmarshal_error errText blob {} x hx
  · intro k f hp hk hf
    have hok : env.unmarshal blob {}
        = .ok { Format := f, PodName := "", PodNameSpace := "", PodUid := "" } := by
      rw [hdec, jsonUnmarshal_ok_iff]
      refine Or.inr ⟨_, hp, ?_, ?_⟩
      · simp [decodeMembers, hk]
      · simp [decodeMembers, hk, Options.set]
    refine ⟨hok, (mount_accepted_iff env s c blob rest).mpr ⟨_, hok, hf⟩, ?_⟩
    intro hb
    obtain ⟨tl, h, h2⟩ := mount_effects_accepted env s c blob rest _ hok hf
    obtain ⟨tl2, h3⟩ := h2 hb
    have hp2 : hostDirOf { Format := f, PodName := "", PodNameSpace := "", PodUid := "" }
        = "/var/lib/app/log-volumes/__" := rfl
    rw [hp2] at h3
    refine ⟨tl2, ?_⟩
    rw [h, h3]
    have hb2 : (env.mkdirAll s svcLogBaseDir).1 = none := hb
    rw [hb2]
    rfl

/-- C5 on three blobs, in a world whose decoder is `json.Unmarshal`: only the format
set, no format, an empty format. -/
theorem options_accepted_iff_witness :
    (∃ tl, effects (Mount (jsonEnv [] "" "" none) ()
        ["/var/lib/containers/x/vol", "\x7b\"format\":\"ext4\"\x7d"]).trace =
        Event.mkdirAll "/var/lib/app/log-volumes" none
          :: Event.mkdirAll "/var/lib/app/log-volumes/__" none :: tl)
      ∧ effects (Mount (jsonEnv [] "" "" none) ()
        ["/var/lib/containers/x/vol", "\x7b\"kubernetes.io/pod.name\":\"p\"\x7d"]).trace = []
      ∧ effects (Mount (jsonEnv [] "" "" none) ()
        ["/var/lib/containers/x/vol", "\x7b\"format\":\"\"\x7d"]).trace = [] :=
  ⟨((options_accepted_iff (jsonEnv [] "" "" none) (fun _ => "json: cannot decode") rfl ()
      "/var/lib/containers/x/vol" "\x7b\"format\":\"ext4\"\x7d" []).2.2.2.2
      "format" "ext4" (by decide) (by decide) (by decide)).2.2 rfl,
    ((options_accepted_iff (jsonEnv [] "" "" none) (fun _ => "json: cannot decode") rfl ()
      "/var/lib/containers/x/vol" "\x7b\"kubernetes.io/pod.name\":\"p\"\x7d" []).2.1
      [("kubernetes.io/pod.name", Member.str "p")] (by decide) (by decide)).2.1,
    ((options_accepted_iff (jsonEnv [] "" "" none) (fun _ => "json: cannot decode") rfl ()
      "/var/lib/containers/x/vol" "\x7b\"format\":\"\"\x7d" []).2.2.1
      [] [] "format" (by decide) (by decide) (by decide)).2.1⟩

/-- C6, the failing input: `umount` exits non-zero with an output that holds a `%`. The
output is the format of `fmt.Errorf`, so the error text is not the output: `%b` became
`%!b(MISSING)`, in the error of `unMount` and in the message of `Unmount`. -/
theorem unmount_output_reformatted :
    (unMount (constEnv scenarioOpts [] "" "umount: /mnt/a%b: not mounted." (some "exit status 32"))
        () "/mnt/a%b").err = some "umount: /mnt/a%!b(MISSING): not mounted."
      ∧ (unMount (constEnv scenarioOpts [] "" "umount: /mnt/a%b: not mounted."
          (some "exit status 32")) () "/mnt/a%b").err ≠ some "umount: /mnt/a%b: not mounted."
      ∧ (Unmount (constEnv scenarioOpts [] "" "umount: /mnt/a%b: not mounted."
          (some "exit status 32")) () ["/mnt/a%b"]).out
        = .response ⟨Status.Failure,
          "unmount container path /mnt/a%b failed, umount: /mnt/a%!b(MISSING): not mounted."⟩
      ∧ (Unmount (constEnv scenarioOpts [] "" "umount: /mnt/a%b: not mounted."
          (some "exit status 32")) () ["/mnt/a%b"]).out
        ≠ .response ⟨Status.Failure,
          "unmount container path /mnt/a%b failed, " ++ "umount: /mnt/a%b: not mounted."⟩ := by
  refine ⟨by decide, by decide, by decide, by decide⟩

/-- C9, the failing input: the base directory cannot be created. `Mount` returns Failure
and `Logger.Error` is not called. -/
theorem base_dir_failure_not_logged :
    (Mount (constEnv scenarioOpts ["/var/lib/app/log-volumes"]
        "mkdir /var/lib/app/log-volumes: permission denied" "" none) ()
        ["/var/lib/containers/x/vol", scenarioBlob]).out
      = .response ⟨Status.Failure, "create log dir /var/lib/app/log-volumes failed, mkdir /var/lib/app/log-volumes: permission denied"⟩
      ∧ errorLog (Mount (constEnv scenarioOpts ["/var/lib/app/log-volumes"]
        "mkdir /var/lib/app/log-volumes: permission denied" "" none) ()
        ["/var/lib/containers/x/vol", scenarioBlob]).trace = [] := by
  refine ⟨by decide, by decide⟩

/-- C7 counterexample: a pod name that holds a slash. `path.Join` cleans the joined path,
so the host directory is neither the plain concatenation nor under the base directory. -/
theorem hostDir_escapes_base :
    hostDirOf { Format := "ext4", PodName := "../x", PodNameSpace := "ns", PodUid := "u" }
        = "/var/lib/app/x_ns_u"
      ∧ hostDirOf { Format := "ext4", PodName := "../x", PodNameSpace := "ns", PodUid := "u" }
        ≠ "/var/lib/app/log-volumes" ++ "/" ++ "../x" ++ "_" ++ "ns" ++ "_" ++ "u"
      ∧ ¬ ("/var/lib/app/log-volumes".data <+:
        (hostDirOf { Format := "ext4", PodName := "../x", PodNameSpace := "ns", PodUid := "u" }).data) := by
  decide

/-- C7 as amended. When no field of the pod identity holds a slash, the host directory
`Mount` derives is exactly "/var/lib/app/log-volumes" + "/" + podName + "_" +
podNamespace + "_" + podUid: a directory directly under the base directory. -/
theorem hostDir_under_base (opts : Options) (hn : '/' ∉ opts.PodName.data)
    (hns : '/' ∉ opts.PodNameSpace.data) (hu : '/' ∉ opts.PodUid.data) :
    hostDirOf opts =
        "/var/lib/app/log-volumes" ++ "/" ++ opts.PodName ++ "_" ++ opts.PodNameSpace ++ "_"
          ++ opts.PodUid
      ∧ ∃ name : String, '/' ∉ name.data ∧ hostDirOf opts = svcLogBaseDir ++ "/" ++ name := by
  have h := hostDirOf_eq opts hn hns hu
  have he := isElem_name _ _ _ hn hns hu
  refine ⟨?_, _, fun hm => he.2.1 '/' hm rfl, h⟩
  rw [h]
  simp [svcLogBaseDir, String.append_assoc]

/-- C7 as amended, on the pod of the scenario. -/
theorem hostDir_under_base_witness :
    '/' ∉ scenarioOpts.PodName.data ∧ '/' ∉ scenarioOpts.PodNameSpace.data
      ∧ '/' ∉ scenarioOpts.PodUid.data
      ∧ (hostDirOf scenarioOpts =
          "/var/lib/app/log-volumes" ++ "/" ++ scenarioOpts.PodName ++ "_"
            ++ scenarioOpts.PodNameSpace ++ "_" ++ scenarioOpts.PodUid
        ∧ ∃ name : String, '/' ∉ name.data ∧ hostDirOf scenarioOpts = svcLogBaseDir ++ "/" ++ name) :=
  ⟨by decide, by decide, by decide,
    hostDir_under_base scenarioOpts (by decide) (by decide) (by decide)⟩

/-- C8. The derivation of the host directory is injective on unambiguous identities:
when no field holds a slash and neither pod name nor namespace holds an underscore, two
identities that differ give host directories that differ. -/
theorem hostDir_injective (o1 o2 : Options)
    (h1 : '/' ∉ o1.PodName.data ∧ '/' ∉ o1.PodNameSpace.data ∧ '/' ∉ o1.PodUid.data)
    (h2 : '/' ∉ o2.PodName.data ∧ '/' ∉ o2.PodNameSpace.data ∧ '/' ∉ o2.PodUid.data)
    (u1 : '_' ∉ o1.PodName.data ∧ '_' ∉ o1.PodNameSpace.data)
    (u2 : '_' ∉ o2.PodName.data ∧ '_' ∉ o2.PodNameSpace.data)
    (hne : (o1.PodName, o1.PodNameSpace, o1.PodUid) ≠ (o2.PodName, o2.PodNameSpace, o2.PodUid)) :
    hostDirOf o1 ≠ hostDirOf o2 := by
  intro heq
  rw [hostDirOf_eq o1 h1.1 h1.2.1 h1.2.2, hostDirOf_eq o2 h2.1 h2.2.1 h2.2.2] at heq
  have hd := congrArg String.data heq
  simp only [String.data_append, List.append_assoc, List.append_cancel_left_eq] at hd
  simp only [List.singleton_append] at hd
  obtain ⟨hn, hrest⟩ := split_at_sep '_' _ _ _ _ u1.1 u2.1 hd
  obtain ⟨hns, hu⟩ := split_at_sep '_' _ _ _ _ u1.2 u2.2 hrest
  apply hne
  rw [String.ext hn, String.ext hns, String.ext hu]

/-- C8 on two pods that differ in the uid only. -/
theorem hostDir_injective_witness :
    (("p", "ns", "u_1") : String × String × String) ≠ ("p", "ns", "u_2")
      ∧ hostDirOf { Format := "ext4", PodName := "p", PodNameSpace := "ns", PodUid := "u_1" }
        ≠ hostDirOf { Format := "ext4", PodName := "p", PodNameSpace := "ns", PodUid := "u_2" } :=
  ⟨by decide,
    hostDir_injective
      { Format := "ext4", PodName := "p", PodNameSpace := "ns", PodUid := "u_1" }
      { Format := "ext4", PodName := "p", PodNameSpace := "ns", PodUid := "u_2" }
      (by decide) (by decide) (by decide) (by decide) (by decide)⟩

/-- C10. `Unmount` creates and removes nothing: among its effects there is no
`os.MkdirAll`, only, when there is an argument, one run of `umount <containerPath>`; the
directories that exist after any earlier trace are those that exist after `Unmount` too.
So the host directory a successful `Mount(containerPath, opts)` created is still there
after `Unmount(containerPath)`. `Unmount` returns Success with message "Success" exactly
when the argument list is not empty and `umount` returns no error. -/
theorem unmount_frame {σ : Type} (env : Env σ) (s : σ) (args : List String) :
    ((args = [] ∧ effects (Unmount env s args).trace = [])
      ∨ ∃ (c : String) (rest : List String), args = c :: rest
        ∧ effects (Unmount env s args).trace = [Event.command "umount" [c]])
    ∧ (∀ (dirs : List String) (before : List Event),
      dirsAfter dirs (before ++ (Unmount env s args).trace) = dirsAfter dirs before)
    ∧ ((Unmount env s args).out = .response ⟨Status.Success, "Success"⟩
      ↔ ∃ (c : String) (rest : List String), args = c :: rest
        ∧ (env.combinedOutput s "umount" [c]).1.2 = none)
    ∧ (∀ (s0 : σ) (c blob : String) (opts : Options) (dirs : List String),
      env.unmarshal blob {} = .ok opts →
      (Mount env s0 [c, blob]).out = .response ⟨Status.Success, "Success"⟩ →
      hostDirOf opts ∈ dirsAfter dirs ((Mount env s0 [c, blob]).trace
        ++ (Unmount env (Mount env s0 [c, blob]).state [c]).trace)) := by
  have hframe : ∀ (s1 : σ) (xs : List String) (dirs : List String) (before : List Event),
      dirsAfter dirs (before ++ (Unmount env s1 xs).trace) = dirsAfter dirs before := by
    intro s1 xs dirs before
    rw [dirsAfter_append]
    match xs with
    | [] => rw [unmount_short env s1]; rfl
    | c :: rest =>
      cases hc : (env.combinedOutput s1 unmountCmd [c]).1.2 with
      | some e => rw [unmount_error env s1 c rest e hc]; rfl
      | none => rw [unmount_success env s1 c rest hc]; rfl
  refine ⟨?_, hframe s args, ?_, ?_⟩
  · match args with
    | [] =>
      rw [unmount_short env s]
      exact Or.inl ⟨rfl, by simp [effects, Event.isEffect]⟩
    | c :: rest =>
      refine Or.inr ⟨c, rest, rfl, ?_⟩
      cases hc : (env.combinedOutput s unmountCmd [c]).1.2 with
      | some e =>
        rw [unmount_error env s c rest e hc]
        simp [effects, Event.isEffect, unmountCmd]
      | none =>
        rw [unmount_success env s c rest hc]
        simp [effects, Event.isEffect, unmountCmd]
  · match args with
    | [] =>
      rw [unmount_short env s]
      simp [returnErrorResponse]
    | c :: rest =>
      cases hc : (env.combinedOutput s unmountCmd [c]).1.2 with
      | some e =>
        rw [unmount_error env s c rest e hc]
        have hc2 : (env.combinedOutput s "umount" [c]).1.2 = some e := hc
        simp [returnErrorResponse, hc2]
      | none =>
        rw [unmount_success env s c rest hc]
        have hc2 : (env.combinedOutput s "umount" [c]).1.2 = none := hc
        simp [successResponse, hc2]
  · intro s0 c blob opts dirs hd hm
    rw [hframe]
    obtain ⟨c', blob', rest', opts', hargs, hd', hf, hb, hh, hc⟩ :=
      (mount_success_iff env s0 [c, blob]).mp hm
    simp only [List.cons.injEq] at hargs
    obtain ⟨rfl, rfl, rfl⟩ := hargs
    rw [hd] at hd'
    cases hd'
    rw [mount_success env s0 c blob [] opts hd hf hb hh hc]
    simp [dirsAfter]

/-- C10 on the round trip of the scenario: after `Mount` and `Unmount` of the same
container path the host directory exists. -/
theorem unmount_frame_witness :
    "/var/lib/app/log-volumes/p_ns_u1" ∈ dirsAfter []
      ((Mount okEnv () ["/var/lib/containers/x/vol", scenarioBlob]).trace
        ++ (Unmount okEnv (Mount okEnv () ["/var/lib/containers/x/vol", scenarioBlob]).state
          ["/var/lib/containers/x/vol"]).trace) :=
  (unmount_frame okEnv () []).2.2.2 () "/var/lib/containers/x/vol" scenarioBlob scenarioOpts []
    rfl (by decide)

end Driver
